import Mathlib

/-!
Verification of the `mvcs` (modular video clipping system) time-and-naming
core: a shallow embedding of `src/mvcs/time.py` and `src/mvcs/job.py`
(with the `mvcs.error.Error` exception modelled as an explicit error
value, since `error.py` only declares an exception class).

Modelling conventions:
* Python `str` values are Lean `String`s; character-level operations work
  on `String.data : List Char`.
* Python `datetime.timedelta` values are modelled as a whole number of
  seconds (`Int`).  Every `timedelta` this program constructs is a whole
  number of seconds (parsing combines integer hour/minute/second
  components), and for such values the `total_seconds()` float arithmetic
  in `timedelta_components` is exact (all magnitudes are far below 2^53
  and the truncating divisions agree with integer division), so `Int`
  arithmetic with truncating `Nat` division is a faithful embedding.
  Python's `timedelta` range limit (overflow raises `OverflowError`) is
  not modelled; no claim depends on it.
* Python `datetime.datetime` values are modelled as a record of
  year/month/day/hour/minute/second components (microseconds are always
  zero in this program).
* Exceptions are modelled with `Except`: `mvcs.error.Error` becomes the
  inductive `Err` whose constructors carry the values interpolated into
  the corresponding Python message strings.
-/

namespace Mvcs

/-! ### Character helpers -/

/-- ASCII whitespace recognised by Python's `str.strip()` / `int()`
(the Unicode-only whitespace code points are not modelled; no input in
scope contains them). -/
def isPyWs (c : Char) : Bool :=
  c = ' ' || c = '\t' || c = '\n' || c = '\x0d' || c = '\x0b' || c = '\x0c'

/-- Decimal digit test, as used by Python's `int()` grammar (`0`-`9`). -/
def isDigitCh (c : Char) : Bool :=
  48 ≤ c.toNat && c.toNat ≤ 57

/-- The decimal digit character for a value `d < 10`. -/
def digitCh (d : Nat) : Char := Char.ofNat (48 + d)

/-- Numeric value of a digit character. -/
def digitVal (c : Char) : Nat := c.toNat - 48

/-! ### Decimal rendering (Python `str(n)` / f-string `{n}`) -/

/-- The decimal digits of `n`, most significant first, with explicit
recursion fuel (any `fuel ≥ n` gives the digits; the fuel keeps the
recursion structural so that proofs can evaluate it). -/
def decDigitsF : Nat → Nat → List Nat
  | 0, n => [n]
  | fuel + 1, n => if n < 10 then [n] else decDigitsF fuel (n / 10) ++ [n % 10]

/-- The decimal digits of `n`, most significant first. -/
def decDigits (n : Nat) : List Nat := decDigitsF n n

/-- Decimal rendering of a natural number, as Python `str(n)` /
f-string `{n}` produce it. -/
def natToDec (n : Nat) : List Char := (decDigits n).map digitCh

/-- Python f-string `{n:02}`: zero-pad to (at least) two digits. -/
def pad2 (n : Nat) : List Char :=
  if n < 10 then '0' :: natToDec n else natToDec n

/-! ### Python string primitives -/

/-- `str.strip()` from the left only. -/
def stripLeft (cs : List Char) : List Char := cs.dropWhile isPyWs

/-- Python `str.strip()` (both ends, default whitespace). -/
def pyStrip (cs : List Char) : List Char :=
  ((cs.dropWhile isPyWs).reverse.dropWhile isPyWs).reverse

/-- Python `str.lstrip("-")`. -/
def lstripDash (cs : List Char) : List Char := cs.dropWhile (· = '-')

/-- Split at the first occurrence of `sep`, if any (the separator is
dropped). -/
def splitFirst (sep : Char) : List Char → Option (List Char × List Char)
  | [] => none
  | c :: cs =>
    if c = sep then some ([], cs)
    else match splitFirst sep cs with
      | none => none
      | some (l, r) => some (c :: l, r)

/-- Python `str.split(sep, maxsplit)` for a single-character separator:
split from the left at most `maxsplit` times. -/
def lsplitMax (maxsplit : Nat) (sep : Char) (cs : List Char) : List (List Char) :=
  match maxsplit with
  | 0 => [cs]
  | m + 1 =>
    match splitFirst sep cs with
    | none => [cs]
    | some (l, r) => l :: lsplitMax m sep r

/-- Python `str.rsplit(sep, maxsplit)` for a single-character separator:
split from the right at most `maxsplit` times. -/
def pyRsplit (maxsplit : Nat) (sep : Char) (cs : List Char) : List (List Char) :=
  ((lsplitMax maxsplit sep cs.reverse).map List.reverse).reverse

/-! ### Python `int(str)` -/

/-- Digit run with optional single underscores between digits, after the
first digit: the tail of Python's integer-literal grammar
(`digit (["_"] digit)*`), accumulating into `acc`. -/
def pyDigitsTail (acc : Nat) : List Char → Option Nat
  | [] => some acc
  | c :: cs =>
    if c = '_' then
      match cs with
      | [] => none
      | c2 :: cs2 =>
        if isDigitCh c2 then pyDigitsTail (acc * 10 + digitVal c2) cs2 else none
    else if isDigitCh c then pyDigitsTail (acc * 10 + digitVal c) cs
    else none

/-- Unsigned digit part of Python `int()`: at least one digit, single
underscores allowed between digits only. -/
def pyDigits : List Char → Option Nat
  | [] => none
  | c :: cs => if isDigitCh c then pyDigitsTail (digitVal c) cs else none

/-- Python's built-in `int(s)` on a string: optional surrounding
whitespace, an optional sign, then digits with optional underscore
separators.  (Non-ASCII decimal digits are not modelled.)  Returns
`none` where Python raises `ValueError`. -/
def pyInt (cs : List Char) : Option Int :=
  match pyStrip cs with
  | [] => none
  | c :: rest =>
    if c = '-' then (pyDigits rest).map (fun n => -(n : Int))
    else if c = '+' then (pyDigits rest).map (fun n => (n : Int))
    else (pyDigits (c :: rest)).map (fun n => (n : Int))

/-! ### YAML-ish untyped values and the error type -/

/-- Untyped deserialized document values (the YAML library's output) as
far as this program inspects them: strings, integers, booleans, null,
lists, and string-keyed mappings. -/
inductive Yaml where
  | str (s : String)
  | int (n : Int)
  | bool (b : Bool)
  | null
  | list (xs : List Yaml)
  | dict (kvs : List (String × Yaml))

/-- `isinstance(v, list)`. -/
def Yaml.isList : Yaml → Bool
  | .list _ => true
  | _ => false

/-- `isinstance(v, dict)`. -/
def Yaml.isDict : Yaml → Bool
  | .dict _ => true
  | _ => false

/-- First-match association-list lookup (Python `dict` keys are unique;
`data[k]` / `k in data`). -/
def lookupA (k : String) : List (String × Yaml) → Option Yaml
  | [] => none
  | (k', v) :: rest => if k' = k then some v else lookupA k rest

mutual

/-- Python `str(v)` on a deserialized value.  Strings pass through,
`None` is `"None"`, booleans are `"True"`/`"False"`, integers render in
decimal.  Containers render in a `repr`-like bracketed form; the claims
never observe the exact container rendering, only that it is not a
parsable timestamp or duration (it never starts with a digit or sign). -/
def pyStr : Yaml → String
  | .str s => s
  | .int n =>
    if n < 0 then "-" ++ ⟨natToDec n.natAbs⟩ else ⟨natToDec n.natAbs⟩
  | .bool b => if b then "True" else "False"
  | .null => "None"
  | .list xs => "[" ++ pyStrList xs ++ "]"
  | .dict kvs => "\x7b" ++ pyStrDict kvs ++ "\x7d"

/-- Comma-joined `repr`-like rendering of list elements. -/
def pyStrList : List Yaml → String
  | [] => ""
  | [x] => pyStr x
  | x :: xs => pyStr x ++ ", " ++ pyStrList xs

/-- Comma-joined `repr`-like rendering of mapping entries. -/
def pyStrDict : List (String × Yaml) → String
  | [] => ""
  | [(k, v)] => k ++ ": " ++ pyStr v
  | (k, v) :: kvs => k ++ ": " ++ pyStr v ++ ", " ++ pyStrDict kvs

end

/-- `mvcs.error.Error` occurrences, one constructor per `raise` site the
claims exercise, carrying the values interpolated into the Python
message. -/
inductive Err where
  /-- `error parsing datetime: {s}` (`time.py`). -/
  | parseDatetime (s : String)
  /-- `error parsing timedelta: {s}` (`time.py`). -/
  | parseTimedelta (s : String)
  /-- `bad clip data: {ex}: {data}` (`job.py`, missing key or failed
  2-tuple unpacking). -/
  | badClipData (data : List (String × Yaml))
  /-- `bad clip start/end: {data}` (`job.py`). -/
  | badClipStartEnd (data : List (String × Yaml))
  /-- `bad clip title: {data}` (`job.py`). -/
  | badClipTitle (data : List (String × Yaml))
  /-- `bad video data: {ex}: {data}` (`job.py`, missing `date`/`title`). -/
  | badVideoData (data : List (String × Yaml))
  /-- `bad video data: {key}: {value}` (`job.py`, failed field
  validation). -/
  | badVideoField (key : String) (value : Yaml)
  /-- `invalid videos: {videos}` (`job.py`). -/
  | invalidVideos (v : Yaml)
  /-- `invalid video entry: {video}` (`job.py`). -/
  | invalidVideoEntry (v : Yaml)
  /-- `missing video file: {src}` (`job.py`). -/
  | missingVideoFile (src : String)

/-! ### `mvcs.time`: durations -/

/-- `timedelta_from_str` (`time.py`): optional leading `-` run negates
(`str.lstrip("-")` removes every leading dash), the positive part is
`rsplit(":", maxsplit=2)`, each part is converted with Python `int()`
(the comprehension stops at the first failure), every part must be
non-negative, and the parts are combined as seconds/minutes/hours from
the right. -/
def timedelta_from_str (s : String) : Except Err Int :=
  let cs := s.data
  let signed := cs.head? = some '-'
  let sPositive := if signed then lstripDash cs else cs
  let signFactor : Int := if signed then -1 else 1
  match (pyRsplit 2 ':' sPositive).mapM pyInt with
  | none => .error (.parseTimedelta s)
  | some parts =>
    if parts.any (· < 0) then .error (.parseTimedelta s)
    else
      let parts := parts.reverse
      let getPart : Nat → Int := fun i => (parts.get? i).getD 0
      .ok (signFactor * (getPart 2 * 3600 + getPart 1 * 60 + getPart 0))

/-- `timedelta_components` (`time.py`): sign, hours, minutes, seconds of
a duration.  With `allowNegative := false` the value is clamped to a
minimum of zero first.  The successive float divisions/subtractions of
the source are exact at these magnitudes and match the `Nat`
divisions used here. -/
def timedelta_components (d : Int) (allowNegative : Bool) : Int × Nat × Nat × Nat :=
  let seconds := if allowNegative then d.natAbs else (max d 0).toNat
  let sign : Int := if allowNegative then (if 0 ≤ d then 1 else -1) else 1
  let hours := seconds / 3600
  let seconds := seconds - hours * 3600
  let minutes := seconds / 60
  let seconds := seconds - minutes * 60
  (sign, hours, minutes, seconds)

/-- `timedelta_to_path_str` (`time.py`):
`f"{hours}h{minutes:02}m{seconds:02}s"` over the clamped components. -/
def timedelta_to_path_str (d : Int) : String :=
  let (_, hours, minutes, seconds) := timedelta_components d false
  ⟨natToDec hours ++ 'h' :: pad2 minutes ++ 'm' :: pad2 seconds ++ ['s']⟩

/-- `timedelta_to_str` (`time.py`): signed display rendering with the
coarsest nonzero unit. -/
def timedelta_to_str (d : Int) : String :=
  let (sign, hours, minutes, seconds) := timedelta_components d true
  let signS : List Char := if sign < 0 then ['-'] else []
  if hours > 0 then
    ⟨signS ++ natToDec hours ++ ':' :: pad2 minutes ++ ':' :: pad2 seconds⟩
  else if minutes > 0 then
    ⟨signS ++ natToDec minutes ++ ':' :: pad2 seconds⟩
  else
    ⟨signS ++ natToDec seconds⟩

/-! ### `mvcs.time`: timestamps

`datetime_from_str` delegates to CPython `datetime.strptime` with the
formats `"%Y-%m-%dT%H:%M:%S"` and `"%Y-%m-%d %H:%M:%S"`.  `_strptime`
compiles each format to a regex (with `IGNORECASE`, so the literal `T`
also matches `t`; a space in the format becomes `\s+`), using
  %Y = `\d\d\d\d`            %m = `1[0-2]|0[1-9]|[1-9]`
  %d = `3[0-1]|[1-2]\d|0[1-9]|[1-9]| [1-9]`
  %H = `2[0-3]|[0-1]\d|\d`   %M = `[0-5]\d|\d`   %S = `6[0-1]|[0-5]\d|\d`
anchored at the start; trailing unconsumed input raises `ValueError`, and
the matched fields are passed to the `datetime` constructor, which
validates ranges (year 1..9999, day against the month length, second
0..59).  The matchers below try each alternative in the written order
and commit to the first that matches the field.  This is equivalent to
the regex's backtracking here: every alternative consumes only digits
(or, for `%d`, a space then a digit), the alternatives of one field are
pairwise disjoint on the characters they consume, and each field is
followed by a non-digit literal (or the end-of-input check), so a longer
alternative that matches the field can never block a parse that a
shorter one would allow. -/

/-- `lo ≤ c ≤ hi` by code point: a regex character class like `[0-5]`. -/
def inCls (c : Char) (lo hi : Nat) : Bool :=
  lo ≤ c.toNat && c.toNat ≤ hi

/-- Regex `\d\d\d\d` (`%Y`). -/
def matchYear : List Char → Option (Nat × List Char)
  | c1 :: c2 :: c3 :: c4 :: rest =>
    if isDigitCh c1 && isDigitCh c2 && isDigitCh c3 && isDigitCh c4 then
      some (((digitVal c1 * 10 + digitVal c2) * 10 + digitVal c3) * 10 + digitVal c4, rest)
    else none
  | _ => none

/-- Regex `1[0-2]|0[1-9]|[1-9]` (`%m`). -/
def matchMonth : List Char → Option (Nat × List Char)
  | c1 :: c2 :: rest =>
    if c1 = '1' && inCls c2 48 50 then some (10 + digitVal c2, rest)
    else if c1 = '0' && inCls c2 49 57 then some (digitVal c2, rest)
    else if inCls c1 49 57 then some (digitVal c1, c2 :: rest)
    else none
  | [c1] => if inCls c1 49 57 then some (digitVal c1, []) else none
  | [] => none

/-- Regex `3[0-1]|[1-2]\d|0[1-9]|[1-9]| [1-9]` (`%d`). -/
def matchDay : List Char → Option (Nat × List Char)
  | c1 :: c2 :: rest =>
    if c1 = '3' && inCls c2 48 49 then some (30 + digitVal c2, rest)
    else if inCls c1 49 50 && isDigitCh c2 then some (digitVal c1 * 10 + digitVal c2, rest)
    else if c1 = '0' && inCls c2 49 57 then some (digitVal c2, rest)
    else if inCls c1 49 57 then some (digitVal c1, c2 :: rest)
    else if c1 = ' ' && inCls c2 49 57 then some (digitVal c2, rest)
    else none
  | [c1] => if inCls c1 49 57 then some (digitVal c1, []) else none
  | [] => none

/-- Regex `2[0-3]|[0-1]\d|\d` (`%H`). -/
def matchHour : List Char → Option (Nat × List Char)
  | c1 :: c2 :: rest =>
    if c1 = '2' && inCls c2 48 51 then some (20 + digitVal c2, rest)
    else if inCls c1 48 49 && isDigitCh c2 then some (digitVal c1 * 10 + digitVal c2, rest)
    else if isDigitCh c1 then some (digitVal c1, c2 :: rest)
    else none
  | [c1] => if isDigitCh c1 then some (digitVal c1, []) else none
  | [] => none

/-- Regex `[0-5]\d|\d` (`%M`). -/
def matchMinute : List Char → Option (Nat × List Char)
  | c1 :: c2 :: rest =>
    if inCls c1 48 53 && isDigitCh c2 then some (digitVal c1 * 10 + digitVal c2, rest)
    else if isDigitCh c1 then some (digitVal c1, c2 :: rest)
    else none
  | [c1] => if isDigitCh c1 then some (digitVal c1, []) else none
  | [] => none

/-- Regex `6[0-1]|[0-5]\d|\d` (`%S`; 60 and 61 pass the regex and are
rejected by the `datetime` constructor). -/
def matchSecond : List Char → Option (Nat × List Char)
  | c1 :: c2 :: rest =>
    if c1 = '6' && inCls c2 48 49 then some (60 + digitVal c2, rest)
    else if inCls c1 48 53 && isDigitCh c2 then some (digitVal c1 * 10 + digitVal c2, rest)
    else if isDigitCh c1 then some (digitVal c1, c2 :: rest)
    else none
  | [c1] => if isDigitCh c1 then some (digitVal c1, []) else none
  | [] => none

/-- A literal character in the compiled format regex. -/
def matchLit (l : Char) : List Char → Option (List Char)
  | [] => none
  | c :: cs => if c = l then some cs else none

/-- The date/time separator: the literal `T` compiled under
`IGNORECASE` (so `t` also matches) when `useT` is set, else the `\s+`
that a space in the format compiles to. -/
def matchSep (useT : Bool) : List Char → Option (List Char)
  | [] => none
  | c :: cs =>
    if useT then
      if c = 'T' || c = 't' then some cs else none
    else
      if isPyWs c then some (cs.dropWhile isPyWs) else none

/-- A parsed timestamp (`datetime.datetime` with zero microseconds). -/
structure DateTime where
  year : Nat
  month : Nat
  day : Nat
  hour : Nat
  minute : Nat
  second : Nat
deriving DecidableEq

/-- Gregorian leap-year rule (as `datetime` implements it). -/
def isLeap (y : Nat) : Bool :=
  y % 4 = 0 && (y % 100 ≠ 0 || y % 400 = 0)

/-- Length of a month (as the `datetime` constructor validates it). -/
def daysInMonth (y mo : Nat) : Nat :=
  if mo = 2 then (if isLeap y then 29 else 28)
  else if mo = 4 || mo = 6 || mo = 9 || mo = 11 then 30
  else 31

/-- The `datetime.datetime` constructor's validation: year 1..9999,
month 1..12, day 1..month length, hour 0..23, minute/second 0..59. -/
def mkDatetime (y mo d h mi s : Nat) : Option DateTime :=
  if 1 ≤ y && y ≤ 9999 && 1 ≤ mo && mo ≤ 12 && 1 ≤ d && d ≤ daysInMonth y mo
      && h ≤ 23 && mi ≤ 59 && s ≤ 59 then
    some ⟨y, mo, d, h, mi, s⟩
  else none

/-- The field-matching phase of `strptime` for
`"%Y-%m-%d{sep}%H:%M:%S"`: the six numeric fields and the unconsumed
remainder. -/
def strptimeFields (useT : Bool) (cs : List Char) :
    Option ((Nat × Nat × Nat × Nat × Nat × Nat) × List Char) := do
  let (y, cs) ← matchYear cs
  let cs ← matchLit '-' cs
  let (mo, cs) ← matchMonth cs
  let cs ← matchLit '-' cs
  let (d, cs) ← matchDay cs
  let cs ← matchSep useT cs
  let (h, cs) ← matchHour cs
  let cs ← matchLit ':' cs
  let (mi, cs) ← matchMinute cs
  let cs ← matchLit ':' cs
  let (s, cs) ← matchSecond cs
  pure ((y, mo, d, h, mi, s), cs)

/-- One `datetime.strptime` attempt: regex match anchored at the start,
rejection of unconverted trailing data, then constructor validation. -/
def strptime (useT : Bool) (cs : List Char) : Option DateTime := do
  let ((y, mo, d, h, mi, s), rest) ← strptimeFields useT cs
  if rest = [] then mkDatetime y mo d h mi s else none

/-- `datetime_from_str` (`time.py`): try the `T` separator, then the
space separator; raise on both failing. -/
def datetime_from_str (s : String) : Except Err DateTime :=
  match strptime true s.data with
  | some dt => .ok dt
  | none =>
    match strptime false s.data with
    | some dt => .ok dt
    | none => .error (.parseDatetime s)

/-! ### Calendar arithmetic (`datetime + timedelta`)

Python `datetime + timedelta` is exact proleptic-Gregorian arithmetic;
it is modelled by converting to a count of seconds relative to
1970-01-01 00:00:00 and back (the standard civil-calendar conversion).
The `OverflowError` outside years 1..9999 is not modelled. -/

/-- Days from 1970-01-01 to the given civil date (proleptic
Gregorian). -/
def daysFromCivil (y mo d : Nat) : Int :=
  let y' : Int := if mo ≤ 2 then (y : Int) - 1 else (y : Int)
  let era : Int := y'.fdiv 400
  let yoe : Int := y' - era * 400
  let mp : Int := if mo > 2 then (mo : Int) - 3 else (mo : Int) + 9
  let doy : Int := (153 * mp + 2).fdiv 5 + (d : Int) - 1
  let doe : Int := yoe * 365 + yoe.fdiv 4 - yoe.fdiv 100 + doy
  era * 146097 + doe - 719468

/-- Civil date from a count of days since 1970-01-01 (inverse of
`daysFromCivil`). -/
def civilFromDays (z : Int) : Nat × Nat × Nat :=
  let z := z + 719468
  let era : Int := z.fdiv 146097
  let doe : Int := z - era * 146097
  let yoe : Int := (doe - doe.fdiv 1460 + doe.fdiv 36524 - doe.fdiv 146096).fdiv 365
  let y : Int := yoe + era * 400
  let doy : Int := doe - (365 * yoe + yoe.fdiv 4 - yoe.fdiv 100)
  let mp : Int := (5 * doy + 2).fdiv 153
  let d : Int := doy - (153 * mp + 2).fdiv 5 + 1
  let m : Int := if mp < 10 then mp + 3 else mp - 9
  let y : Int := if m ≤ 2 then y + 1 else y
  (y.toNat, m.toNat, d.toNat)

/-- Seconds from 1970-01-01 00:00:00 to a `DateTime`. -/
def DateTime.toSecs (dt : DateTime) : Int :=
  daysFromCivil dt.year dt.month dt.day * 86400
    + dt.hour * 3600 + dt.minute * 60 + dt.second

/-- `DateTime` from seconds since 1970-01-01 00:00:00. -/
def dateTimeOfSecs (n : Int) : DateTime :=
  let days := n.fdiv 86400
  let rem := (n.fmod 86400).toNat
  let (y, mo, d) := civilFromDays days
  ⟨y, mo, d, rem / 3600, rem % 3600 / 60, rem % 60⟩

/-- Python `datetime + timedelta`. -/
def DateTime.addTimedelta (dt : DateTime) (delta : Int) : DateTime :=
  dateTimeOfSecs (dt.toSecs + delta)

/-! ### String munging used by filename formatting -/

/-- Python `str.casefold()` restricted to ASCII letters (no input in
scope contains characters where full Unicode case folding differs). -/
def pyCasefold (cs : List Char) : List Char :=
  cs.map fun c => if 65 ≤ c.toNat && c.toNat ≤ 90 then Char.ofNat (c.toNat + 32) else c

/-- Python `str.replace(old, new)` for nonempty `old = o :: oldTail`:
left-to-right, non-overlapping.  The fuel argument (any value
`≥ cs.length`) keeps the recursion structural so that proofs can
evaluate it. -/
def replaceCore (o : Char) (oldTail new : List Char) : Nat → List Char → List Char
  | _, [] => []
  | 0, cs => cs
  | fuel + 1, c :: cs =>
    if (o :: oldTail).isPrefixOf (c :: cs) then
      new ++ replaceCore o oldTail new fuel (cs.drop oldTail.length)
    else
      c :: replaceCore o oldTail new fuel cs

/-- Python `str.replace(old, new)`, including the empty-`old` case
(`new` is interleaved before every character and appended). -/
def pyReplace (old new : List Char) (cs : List Char) : List Char :=
  match old with
  | [] => new ++ cs.flatMap (fun c => [c] ++ new)
  | o :: oldTail => replaceCore o oldTail new cs.length cs

/-- Apply an ordered list of `str.replace` substitutions (later entries
see the earlier entries' output). -/
def applyReplaces (pairs : List (String × String)) (s : String) : String :=
  pairs.foldl (fun acc p => ⟨pyReplace p.1.data p.2.data acc.data⟩) s

/-- Python `" - ".join(parts)`. -/
def joinSep (sep : String) : List String → String
  | [] => ""
  | [p] => p
  | p :: ps => p ++ sep ++ joinSep sep ps

/-- `str(dir / name)` for a `pathlib` directory already in normalized
string form and a relative file name: `pathlib` drops a `"."` directory
and inserts exactly one `/`. -/
def pathJoin (dir name : String) : String :=
  if dir = "." then name
  else if dir = "/" then "/" ++ name
  else dir ++ "/" ++ name

/-- `datetime.strftime("%Y-%m-%d %H:%M:%S")` (glibc renders `%Y` without
padding; all two-digit fields are zero-padded). -/
def strftimeBase (dt : DateTime) : String :=
  ⟨natToDec dt.year ++ '-' :: pad2 dt.month ++ '-' :: pad2 dt.day ++ ' ' ::
    pad2 dt.hour ++ ':' :: pad2 dt.minute ++ ':' :: pad2 dt.second⟩

/-- `datetime.strftime("%Y-%m-%d %H-%M-%S.mkv")`, the source-file name
format in `Video.write_clips`. -/
def strftimeSrc (dt : DateTime) : String :=
  ⟨natToDec dt.year ++ '-' :: pad2 dt.month ++ '-' :: pad2 dt.day ++ ' ' ::
    pad2 dt.hour ++ '-' :: pad2 dt.minute ++ '-' :: pad2 dt.second ++
    '.' :: 'm' :: 'k' :: ['v']⟩

/-! ### `mvcs.job`: the Clip/Video/Job model -/

/-- A single video clip to create (`Clip` in `job.py`; field order as in
the source `NamedTuple`). -/
structure Clip where
  ends : Int
  start : Int
  title : String
deriving DecidableEq

/-- The slice of `mvcs.config.Config` the job module reads: the ordered
filename replacement mapping (`Replace` preserves insertion order; its
keys are validated nonempty). -/
structure Config where
  filename_replace : List (String × String)

/-- Run `timedelta_from_str` over the stripped halves of the split
`time` value left to right, stopping at the first failure, as the list
comprehension in `Clip.from_dict` does. -/
def parseTimeParts : List (List Char) → Except Err (List Int)
  | [] => .ok []
  | t :: ts => do
    let v ← timedelta_from_str ⟨pyStrip t⟩
    let vs ← parseTimeParts ts
    pure (v :: vs)

/-- `Clip.from_dict` (`job.py`): coerce `title` with `str` (a missing
key raises), split `str(data["time"])` at the first `-`
(`maxsplit=1`), strip and parse each half, require exactly two parts
(a 1-element unpacking raises `ValueError`, caught and reported as bad
clip data), require `start < end` and a nonempty title.  Failures are
the explicit `Error` values; no partially constructed `Clip` exists on
any failure path. -/
def Clip.from_dict (data : List (String × Yaml)) : Except Err Clip :=
  match lookupA "title" data with
  | none => .error (.badClipData data)
  | some tv =>
    let title := pyStr tv
    match lookupA "time" data with
    | none => .error (.badClipData data)
    | some timev =>
      match parseTimeParts (lsplitMax 1 '-' (pyStr timev).data) with
      | .error e => .error e
      | .ok [s, e] =>
        if e ≤ s then .error (.badClipStartEnd data)
        else if title = "" then .error (.badClipTitle data)
        else .ok ⟨e, s, title⟩
      | .ok _ => .error (.badClipData data)

/-- `Clip.path_str` (`job.py`): join base timestamp, `T+` relative
start, video title, and `"<clip title>.mkv"` with `" - "`, casefold,
then apply `/`→`-`, `:`→`-`, and the configured replacement entries in
order. -/
def Clip.path_str (c : Clip) (date : DateTime) (epoch : Int) (title : String)
    (replace : List (String × String)) : String :=
  let joined := joinSep " - "
    [strftimeBase (date.addTimedelta epoch),
     "T+" ++ timedelta_to_path_str (c.start - epoch),
     title,
     c.title ++ ".mkv"]
  applyReplaces (("/", "-") :: (":", "-") :: replace) ⟨pyCasefold joined.data⟩

/-- One OBS capture video and its clips (`Video` in `job.py`). -/
structure Video where
  date : DateTime
  title : String
  clips : List Clip := []
  epoch : Int := 0

/-- Extract the key-value lists of a list of mapping values, provided
every element is a mapping (`isinstance(x, dict)` for every `x`). -/
def allDicts : List Yaml → Option (List (List (String × Yaml)))
  | [] => some []
  | .dict kvs :: xs => (allDicts xs).map (kvs :: ·)
  | _ => none

/-- Run `Clip.from_dict` over a clip list left to right, stopping at the
first failure. -/
def parseClips : List (List (String × Yaml)) → Except Err (List Clip)
  | [] => .ok []
  | d :: ds => do
    let c ← Clip.from_dict d
    let cs ← parseClips ds
    pure (c :: cs)

/-- `Video.from_dict` (`job.py`): `date` is looked up (missing key is
bad video data), coerced with `str` and parsed (a parse failure
propagates uncaught), `title` is looked up and coerced; then the
optional `clips` value must be a list of mappings (else
`bad video data: clips: {value}`) whose entries are parsed with
`Clip.from_dict`, and the optional `epoch` is coerced and parsed. -/
def Video.from_dict (data : List (String × Yaml)) : Except Err Video :=
  match lookupA "date" data with
  | none => .error (.badVideoData data)
  | some dv =>
    match datetime_from_str (pyStr dv) with
    | .error e => .error e
    | .ok date =>
      match lookupA "title" data with
      | none => .error (.badVideoData data)
      | some tv =>
        let title := pyStr tv
        let clipsE : Except Err (List Clip) :=
          match lookupA "clips" data with
          | none => .ok []
          | some (.list xs) =>
            match allDicts xs with
            | some ds => parseClips ds
            | none => .error (.badVideoField "clips" (.list xs))
          | some v => .error (.badVideoField "clips" v)
        match clipsE with
        | .error e => .error e
        | .ok clips =>
          match lookupA "epoch" data with
          | none => .ok ⟨date, title, clips, 0⟩
          | some ev =>
            match timedelta_from_str (pyStr ev) with
            | .error e => .error e
            | .ok epoch => .ok ⟨date, title, clips, epoch⟩

/-- The source-recording file name `Video.write_clips` looks for:
`date.strftime("%Y-%m-%d %H-%M-%S.mkv")` with the configured
replacements applied. -/
def Video.srcName (cfg : Config) (v : Video) : String :=
  applyReplaces cfg.filename_replace (strftimeSrc v.date)

/-- The resolved source path `src_dir / src_name` (as a string, the form
the missing-file error message carries). -/
def Video.srcPath (cfg : Config) (srcDir : String) (v : Video) : String :=
  pathJoin srcDir (v.srcName cfg)

/-- The destination paths of a video's clips, in clip order. -/
def Video.clipPaths (cfg : Config) (dstDir : String) (v : Video) : List String :=
  v.clips.map fun c => pathJoin dstDir (c.path_str v.date v.epoch v.title cfg.filename_replace)

/-- `Video.write_clips` (`job.py`), with the filesystem abstracted as
the `is_file` predicate `fs` and the `ffmpeg` invocations recorded as
the list of destination paths written (the external tool itself is out
of scope): the source path is checked, then every clip is written. -/
def Video.write_clips (fs : String → Bool) (cfg : Config) (srcDir dstDir : String)
    (v : Video) : Except Err (List String) :=
  let src := v.srcPath cfg srcDir
  if fs src then .ok (v.clipPaths cfg dstDir)
  else .error (.missingVideoFile src)

/-- The full batch job (`Job` in `job.py`).  Directory fields hold the
normalized `str(Path(...))` form. -/
structure Job where
  output_dir : String
  video_dir : String
  videos : List Video := []

/-- Run `Video.from_dict` over the video list left to right, stopping at
the first failure, as the list comprehension in `Job.from_dict` does. -/
def parseVideos : List (List (String × Yaml)) → Except Err (List Video)
  | [] => .ok []
  | d :: ds => do
    let v ← Video.from_dict d
    let vs ← parseVideos ds
    pure (v :: vs)

/-- `Job.from_dict` (`job.py`): `videos` defaults to the empty list and
must be a list (checked first), every entry must be a mapping (checked
for all entries before any is parsed), then the directories are coerced
and the videos parsed.  (`Path` normalization of the directory strings
is not modelled; no claim observes it.) -/
def Job.from_dict (data : List (String × Yaml)) : Except Err Job :=
  let videos := (lookupA "videos" data).getD (.list [])
  match videos with
  | .list vs =>
    match allDicts vs with
    | none =>
      match vs.find? (fun x => !x.isDict) with
      | some bad => .error (.invalidVideoEntry bad)
      | none => .error (.invalidVideos (.list vs))
    | some ds =>
      match parseVideos ds with
      | .error e => .error e
      | .ok videos =>
        .ok ⟨pyStr ((lookupA "output-dir" data).getD (.str ".")),
             pyStr ((lookupA "video-dir" data).getD (.str ".")),
             videos⟩
  | v => .error (.invalidVideos v)

/-- `Job.run` (`job.py`): process the videos in order, recording the
clip files written before the first error (the run stops there; files
already written remain). -/
def runVideos (fs : String → Bool) (cfg : Config) (srcDir dstDir : String) :
    List Video → List String × Option Err
  | [] => ([], none)
  | v :: vs =>
    match v.write_clips fs cfg srcDir dstDir with
    | .error e => ([], some e)
    | .ok outs =>
      let (rest, err) := runVideos fs cfg srcDir dstDir vs
      (outs ++ rest, err)

/-- `Job.run` (`job.py`): iterate `write_clips` over the videos. -/
def Job.run (fs : String → Bool) (cfg : Config) (j : Job) : List String × Option Err :=
  runVideos fs cfg j.video_dir j.output_dir j.videos

/-! ### Spec-side definitions used to state the claims -/

/-- The value of a most-significant-first digit list. -/
def digitsVal (ds : List Nat) : Nat :=
  ds.foldl (fun a d => a * 10 + d) 0

/-- The spec's path-duration shape `^\d+h\d{2}m\d{2}s$`: one or more
digits, `h`, exactly two digits, `m`, exactly two digits, `s`. -/
def durationPathPattern (str : String) : Bool :=
  !(str.data.takeWhile isDigitCh).isEmpty &&
    match str.data.dropWhile isDigitCh with
    | ['h', a, b, 'm', c, d, 's'] =>
      isDigitCh a && isDigitCh b && isDigitCh c && isDigitCh d
    | _ => false

/-- A numeric timestamp field rendered zero-padded to two digits. -/
def rend2 (v : Nat) : List Char := [digitCh (v / 10), digitCh (v % 10)]

/-- A numeric timestamp field rendered either zero-padded to two digits
or minimally (the two coincide for two-digit values). -/
def rendOpt (padded : Bool) (v : Nat) : List Char :=
  if padded then rend2 v else natToDec v

/-- A year rendered as exactly four digits. -/
def rendYear4 (y : Nat) : List Char :=
  [digitCh (y / 1000), digitCh (y / 100 % 10), digitCh (y / 10 % 10), digitCh (y % 10)]

/-- A timestamp string built from numeric components: four-digit year,
then month/day/hour/minute/second each either zero-padded or minimal
(per the corresponding flag), with the given date/time separator
character. -/
def rendDateTime (sep : Char) (p1 p2 p3 p4 p5 : Bool)
    (y mo d h mi s : Nat) : String :=
  ⟨rendYear4 y ++ '-' :: rendOpt p1 mo ++ '-' :: rendOpt p2 d ++ sep ::
    rendOpt p3 h ++ ':' :: rendOpt p4 mi ++ ':' :: rendOpt p5 s⟩


/-! ### Helper lemmas -/

theorem splitFirst_eq_none {sep : Char} {a : List Char} (h : sep ∉ a) :
    splitFirst sep a = none := by
  induction a with
  | nil => rfl
  | cons c a ih =>
    simp only [List.mem_cons, not_or] at h
    have hc : ¬ (c = sep) := fun hh => h.1 hh.symm
    simp [splitFirst, hc, ih h.2]

theorem splitFirst_append {sep : Char} {a b : List Char} (h : sep ∉ a) :
    splitFirst sep (a ++ sep :: b) = some (a, b) := by
  induction a with
  | nil => simp [splitFirst]
  | cons c a ih =>
    simp only [List.mem_cons, not_or] at h
    have hc : ¬ (c = sep) := fun hh => h.1 hh.symm
    simp [splitFirst, hc, ih h.2]

theorem lsplitMax_one_append {sep : Char} {a b : List Char} (h : sep ∉ a) :
    lsplitMax 1 sep (a ++ sep :: b) = [a, b] := by
  simp [lsplitMax, splitFirst_append h]

theorem lstripDash_replicate_append (j : Nat) (cs : List Char) :
    lstripDash (List.replicate j '-' ++ cs) = lstripDash cs := by
  induction j with
  | zero => simp
  | succ j ih =>
    have hstep : lstripDash ('-' :: (List.replicate j '-' ++ cs)) =
        lstripDash (List.replicate j '-' ++ cs) := by
      simp [lstripDash, List.dropWhile_cons]
    rw [List.replicate_succ, List.cons_append, hstep, ih]

theorem timedelta_from_str_neg5_of_strip (s : String) (hhead : s.data.head? = some '-')
    (hstrip : lstripDash s.data = ['5']) : timedelta_from_str s = .ok (-5) := by
  simp only [timedelta_from_str, hhead, hstrip]
  rfl

theorem parseTimeParts_pair {a b : List Char} {s e : Int}
    (ha : timedelta_from_str ⟨pyStrip a⟩ = .ok s)
    (hb : timedelta_from_str ⟨pyStrip b⟩ = .ok e) :
    parseTimeParts [a, b] = .ok [s, e] := by
  simp only [parseTimeParts, ha, hb]
  rfl

theorem Clip.from_dict_eval (data : List (String × Yaml)) (tv timev : Yaml)
    (ht : lookupA "title" data = some tv) (hm : lookupA "time" data = some timev) :
    Clip.from_dict data =
      match parseTimeParts (lsplitMax 1 '-' (pyStr timev).data) with
      | .error e => .error e
      | .ok [s, e] =>
        if e ≤ s then .error (.badClipStartEnd data)
        else if pyStr tv = "" then .error (.badClipTitle data)
        else .ok ⟨e, s, pyStr tv⟩
      | .ok _ => .error (.badClipData data) := by
  simp only [Clip.from_dict, ht, hm]

/-- Claim C6: for every clip record whose two parsed durations satisfy
`end ≤ start`, `Clip.from_dict` fails with the validation error carrying
the clip's raw data; construction returns through `Except`, so no
partially constructed `Clip` is observable on any failure path. -/
theorem clip_rejects_end_le_start
    (data : List (String × Yaml)) (tv timev : Yaml) (a b : List Char) (s e : Int)
    (ht : lookupA "title" data = some tv)
    (hm : lookupA "time" data = some timev)
    (hsplit : lsplitMax 1 '-' (pyStr timev).data = [a, b])
    (ha : timedelta_from_str ⟨pyStrip a⟩ = .ok s)
    (hb : timedelta_from_str ⟨pyStrip b⟩ = .ok e)
    (hle : e ≤ s) :
    Clip.from_dict data = .error (.badClipStartEnd data) := by
  rw [Clip.from_dict_eval data tv timev ht hm, hsplit, parseTimeParts_pair ha hb]
  simp [hle]

/-- Witness for `clip_rejects_end_le_start` at the record
`{time: "1 - 0", title: "test"}`. -/
theorem clip_rejects_end_le_start_witness :
    Clip.from_dict [("time", Yaml.str "1 - 0"), ("title", Yaml.str "test")] =
      .error (.badClipStartEnd [("time", Yaml.str "1 - 0"), ("title", Yaml.str "test")]) :=
  clip_rejects_end_le_start _ (.str "test") (.str "1 - 0")
    ['1', ' '] [' ', '0'] 1 0 rfl rfl rfl rfl rfl (by decide)

/-- Claim C1 (counterexample): the record `{time: "-1 - 0", title: "test"}`
is not accepted with `start = -1, end = 0`; `Clip.from_dict` splits at
the very first `-`, leaving an empty first half whose parse fails. -/
theorem clip_time_neg_first_half_rejected :
    Clip.from_dict [("time", Yaml.str "-1 - 0"), ("title", Yaml.str "test")] =
      .error (.parseTimedelta "") := rfl

/-- Claim C1 (amended): `Clip.from_dict` splits the raw `time` string at
the first `-` of the whole string (`maxsplit=1`, before any trimming),
trims each half, and parses each with `timedelta_from_str`; accordingly
a time whose left half carries the sign, like `"-1 - 0"`, splits into an
empty first half and is rejected with a parse error. -/
theorem clip_time_split_first_dash :
    (∀ (data : List (String × Yaml)) (tv timev : Yaml) (a b : List Char) (s e : Int),
      lookupA "title" data = some tv →
      pyStr tv ≠ "" →
      lookupA "time" data = some timev →
      (pyStr timev).data = a ++ '-' :: b →
      '-' ∉ a →
      timedelta_from_str ⟨pyStrip a⟩ = .ok s →
      timedelta_from_str ⟨pyStrip b⟩ = .ok e →
      s < e →
      Clip.from_dict data = .ok ⟨e, s, pyStr tv⟩)
    ∧ Clip.from_dict [("time", Yaml.str "-1 - 0"), ("title", Yaml.str "test")] =
        .error (.parseTimedelta "") := by
  constructor
  · intro data tv timev a b s e ht hti hm hdata hnm ha hb hlt
    rw [Clip.from_dict_eval data tv timev ht hm, hdata, lsplitMax_one_append hnm,
        parseTimeParts_pair ha hb]
    show (if e ≤ s then Except.error (Err.badClipStartEnd data)
        else if pyStr tv = "" then Except.error (Err.badClipTitle data)
        else Except.ok (Clip.mk e s (pyStr tv))) = Except.ok (Clip.mk e s (pyStr tv))
    rw [if_neg (not_le.mpr hlt), if_neg hti]
  · rfl

/-- Witness for `clip_time_split_first_dash` at the record
`{time: "1 - 2", title: "x"}`. -/
theorem clip_time_split_first_dash_witness :
    Clip.from_dict [("time", Yaml.str "1 - 2"), ("title", Yaml.str "x")] = .ok ⟨2, 1, "x"⟩ :=
  clip_time_split_first_dash.1 [("time", Yaml.str "1 - 2"), ("title", Yaml.str "x")]
    (.str "x") (.str "1 - 2") ['1', ' '] [' ', '2'] 1 2
    rfl (by decide) rfl rfl (by decide) rfl rfl (by decide)

/-- Claim C2 (counterexample): `"--5"` does not fail with a parse error;
`str.lstrip("-")` removes every leading dash, so it parses to `-5`
seconds. -/
theorem timedelta_double_dash_accepted :
    timedelta_from_str "--5" = .ok (-5) := rfl

/-- Claim C2 (amended): a leading run of one or more `-` characters
negates the duration once (`lstrip("-")` removes them all); a `-`
embedded after the leading run is rejected exactly when the component's
`int()` value is negative (so `"0:-1"` fails, while a component like
`"-0"` whose value is non-negative is accepted). -/
theorem timedelta_dash_handling_amended :
    (∀ k : Nat, 1 ≤ k →
      timedelta_from_str ⟨List.replicate k '-' ++ ['5']⟩ = .ok (-5))
    ∧ timedelta_from_str "0:-1" = .error (.parseTimedelta "0:-1")
    ∧ timedelta_from_str "0:-0" = .ok 0 := by
  refine ⟨?_, rfl, rfl⟩
  intro k hk
  obtain ⟨j, rfl⟩ : ∃ j, k = j + 1 := ⟨k - 1, by omega⟩
  refine timedelta_from_str_neg5_of_strip _ ?_ ?_
  · show (List.replicate (j + 1) '-' ++ ['5']).head? = some '-'
    simp [List.replicate_succ]
  · show lstripDash (List.replicate (j + 1) '-' ++ ['5']) = ['5']
    rw [lstripDash_replicate_append]
    rfl

/-- Witness for `timedelta_dash_handling_amended` at `k = 2`,
i.e. the string `"--5"`. -/
theorem timedelta_dash_handling_amended_witness :
    1 ≤ 2 ∧ timedelta_from_str ⟨List.replicate 2 '-' ++ ['5']⟩ = .ok (-5) :=
  ⟨by decide, timedelta_dash_handling_amended.1 2 (by decide)⟩

/-- Claim C10: `timedelta_from_str` is more lenient than the documented
component grammar, because components go through Python `int()`: a
leading `+`, surrounding whitespace, or embedded underscores in a
component are accepted with the underlying integer value. -/
theorem timedelta_pyint_leniency :
    timedelta_from_str "+5" = .ok 5 ∧ timedelta_from_str " 5" = .ok 5 ∧
      timedelta_from_str "1_0" = .ok 10 :=
  ⟨rfl, rfl, rfl⟩

/-- Claim C3: `Clip.path_str` joins the shifted base timestamp, the
`T+` relative start, the video title and `"<clip title>.mkv"` with
`" - "`, lowercases, replaces `/` then `:` by `-`, then applies the
mapping entries in order (later entries see earlier output): the two
spec scenarios (epoch 0 and epoch 3 with saturation), plus a
compounding-mapping example. -/
theorem clip_path_str_scenarios :
    Clip.from_dict [("time", Yaml.str "1-2"), ("title", Yaml.str "title")] =
      .ok ⟨2, 1, "title"⟩
    ∧ (Clip.mk 2 1 "title").path_str ⟨1970, 1, 1, 0, 0, 0⟩ 0 "test" [] =
        "1970-01-01 00-00-00 - t+0h00m01s - test - title.mkv"
    ∧ (Clip.mk 2 1 "title").path_str ⟨1970, 1, 1, 0, 0, 0⟩ 3 "test" [] =
        "1970-01-01 00-00-03 - t+0h00m00s - test - title.mkv"
    ∧ (Clip.mk 2 1 "ab").path_str ⟨1970, 1, 1, 0, 0, 0⟩ 0 "t" [("a", "b"), ("b", "c")] =
        "1970-01-01 00-00-00 - t+0h00m01s - t - cc.mkv" :=
  ⟨rfl, rfl, rfl, rfl⟩


theorem digitCh_toNat {d : Nat} (h : d < 10) : (digitCh d).toNat = 48 + d := by
  interval_cases d <;> rfl

theorem isDigitCh_digitCh {d : Nat} (h : d < 10) : isDigitCh (digitCh d) = true := by
  interval_cases d <;> rfl

theorem decDigitsF_small (fuel n : Nat) (h : n < 10) : decDigitsF fuel n = [n] := by
  cases fuel with
  | zero => rfl
  | succ f => simp [decDigitsF, h]

theorem decDigitsF_lt10 : ∀ fuel n, n ≤ fuel → ∀ d ∈ decDigitsF fuel n, d < 10 := by
  intro fuel
  induction fuel with
  | zero =>
    intro n hn d hd
    have : n = 0 := by omega
    subst this
    simp [decDigitsF] at hd
    omega
  | succ f ih =>
    intro n hn d hd
    by_cases h10 : n < 10
    · rw [decDigitsF_small _ _ h10] at hd
      simp at hd
      omega
    · simp only [decDigitsF, if_neg h10, List.mem_append, List.mem_singleton] at hd
      rcases hd with hd | hd
      · exact ih (n / 10) (by omega) d hd
      · omega

theorem decDigits_lt10 (n : Nat) : ∀ d ∈ decDigits n, d < 10 :=
  decDigitsF_lt10 n n le_rfl

theorem decDigitsF_ne_nil (fuel n : Nat) : decDigitsF fuel n ≠ [] := by
  cases fuel with
  | zero => simp [decDigitsF]
  | succ f =>
    by_cases h10 : n < 10 <;> simp [decDigitsF, h10]

theorem natToDec_ne_nil (n : Nat) : natToDec n ≠ [] := by
  unfold natToDec decDigits
  simp [decDigitsF_ne_nil]

theorem natToDec_all_digits (n : Nat) : ∀ c ∈ natToDec n, isDigitCh c = true := by
  unfold natToDec
  intro c hc
  obtain ⟨d, hd, rfl⟩ := List.mem_map.mp hc
  exact isDigitCh_digitCh (decDigits_lt10 n d hd)

theorem pad2_eval (m : Nat) (h : m < 100) :
    pad2 m = [digitCh (m / 10), digitCh (m % 10)] := by
  unfold pad2 natToDec
  by_cases hm : m < 10
  · rw [if_pos hm, decDigits, decDigitsF_small _ _ hm]
    have h10 : m / 10 = 0 := by omega
    have hmod : m % 10 = m := by omega
    rw [h10, hmod]
    rfl
  · rw [if_neg hm]
    obtain ⟨f, rfl⟩ : ∃ f, m = f + 1 := ⟨m - 1, by omega⟩
    rw [decDigits, decDigitsF, if_neg hm, decDigitsF_small f ((f + 1) / 10) (by omega)]
    rfl

theorem takeWhile_append_all {p : Char → Bool} :
    ∀ {xs ys : List Char}, (∀ c ∈ xs, p c = true) →
      (xs ++ ys).takeWhile p = xs ++ ys.takeWhile p := by
  intro xs
  induction xs with
  | nil => intro ys _; rfl
  | cons x xs ih =>
    intro ys h
    have hx : p x = true := h x (List.mem_cons_self _ _)
    simp only [List.cons_append, List.takeWhile_cons, hx, if_true]
    rw [ih fun c hc => h c (List.mem_cons_of_mem _ hc)]

theorem dropWhile_append_all {p : Char → Bool} :
    ∀ {xs ys : List Char}, (∀ c ∈ xs, p c = true) →
      (xs ++ ys).dropWhile p = ys.dropWhile p := by
  intro xs
  induction xs with
  | nil => intro ys _; rfl
  | cons x xs ih =>
    intro ys h
    have hx : p x = true := h x (List.mem_cons_self _ _)
    simp only [List.cons_append, List.dropWhile_cons, hx, if_true]
    exact ih fun c hc => h c (List.mem_cons_of_mem _ hc)

theorem durationPathPattern_build (hd : List Char) (a b c e : Char)
    (hne : hd ≠ []) (hhd : ∀ x ∈ hd, isDigitCh x = true)
    (ha : isDigitCh a = true) (hb : isDigitCh b = true)
    (hc : isDigitCh c = true) (he : isDigitCh e = true) :
    durationPathPattern ⟨hd ++ 'h' :: a :: b :: 'm' :: c :: e :: ['s']⟩ = true := by
  have hH : isDigitCh 'h' = false := rfl
  have e1 : List.takeWhile isDigitCh (hd ++ 'h' :: a :: b :: 'm' :: c :: e :: ['s'])
      = hd := by
    rw [takeWhile_append_all hhd]
    simp [List.takeWhile_cons, hH]
  have e2 : List.dropWhile isDigitCh (hd ++ 'h' :: a :: b :: 'm' :: c :: e :: ['s'])
      = 'h' :: a :: b :: 'm' :: c :: e :: ['s'] := by
    rw [dropWhile_append_all hhd]
    simp [List.dropWhile_cons, hH]
  rw [durationPathPattern]
  rw [show (String.mk (hd ++ 'h' :: a :: b :: 'm' :: c :: e :: ['s'])).data
      = hd ++ 'h' :: a :: b :: 'm' :: c :: e :: ['s'] from rfl]
  rw [e1, e2]
  simp [hne, ha, hb, hc, he]

theorem timedelta_components_false (d : Int) :
    timedelta_components d false =
      (1, (max d 0).toNat / 3600, (max d 0).toNat % 3600 / 60, (max d 0).toNat % 60) := by
  simp only [timedelta_components, Bool.false_eq_true, if_false]
  refine Prod.ext rfl (Prod.ext rfl (Prod.ext ?_ ?_)) <;> simp <;> omega

/-- Claim C5: `timedelta_to_path_str` clamps below at zero — every
duration renders identically to its clamp `max d 0`, so negatives render
as `"0h00m00s"` — and for `d ≥ 0` the result matches
`^\d+h\d{2}m\d{2}s$` (hours unpadded, minutes/seconds two digits). -/
theorem duration_path_clamped_shape (d : Int) :
    timedelta_to_path_str d = timedelta_to_path_str (max d 0) ∧
      (0 ≤ d → durationPathPattern (timedelta_to_path_str d) = true) := by
  constructor
  · have hmax : max (max d 0) 0 = max d 0 := max_eq_left (le_max_right d 0)
    simp [timedelta_to_path_str, timedelta_components, hmax]
  · intro _
    have hcomp := timedelta_components_false d
    have hm : (max d 0).toNat % 3600 / 60 < 100 := by omega
    have hs : (max d 0).toNat % 60 < 100 := by omega
    rw [timedelta_to_path_str, hcomp]
    show durationPathPattern ⟨natToDec ((max d 0).toNat / 3600) ++ 'h' ::
        pad2 ((max d 0).toNat % 3600 / 60) ++ 'm' ::
        pad2 ((max d 0).toNat % 60) ++ ['s']⟩ = true
    rw [pad2_eval _ hm, pad2_eval _ hs]
    have hassoc : natToDec ((max d 0).toNat / 3600) ++
          'h' :: [digitCh ((max d 0).toNat % 3600 / 60 / 10),
            digitCh ((max d 0).toNat % 3600 / 60 % 10)] ++
          'm' :: [digitCh ((max d 0).toNat % 60 / 10), digitCh ((max d 0).toNat % 60 % 10)] ++
          ['s'] =
        natToDec ((max d 0).toNat / 3600) ++
          'h' :: digitCh ((max d 0).toNat % 3600 / 60 / 10) ::
          digitCh ((max d 0).toNat % 3600 / 60 % 10) ::
          'm' :: digitCh ((max d 0).toNat % 60 / 10) ::
          digitCh ((max d 0).toNat % 60 % 10) :: ['s'] := by
      simp
    rw [hassoc]
    exact durationPathPattern_build _ _ _ _ _ (natToDec_ne_nil _) (natToDec_all_digits _)
      (isDigitCh_digitCh (by omega)) (isDigitCh_digitCh (by omega))
      (isDigitCh_digitCh (by omega)) (isDigitCh_digitCh (by omega))

/-- Witness for `duration_path_clamped_shape` at `d = -7` (clamping) and
`d = 3723` (shape, with `0 ≤ 3723` discharged). -/
theorem duration_path_clamped_shape_witness :
    timedelta_to_path_str (-7) = timedelta_to_path_str (max (-7) 0) ∧
      0 ≤ (3723 : Int) ∧ durationPathPattern (timedelta_to_path_str 3723) = true :=
  ⟨(duration_path_clamped_shape (-7)).1, by decide,
    (duration_path_clamped_shape 3723).2 (by decide)⟩


/-! ### Digit characters under Python `int()` -/

theorem digitVal_digitCh {d : Nat} (h : d < 10) : digitVal (digitCh d) = d := by
  interval_cases d <;> rfl

theorem digitCh_ne_dash {d : Nat} (h : d < 10) : digitCh d ≠ '-' := by
  interval_cases d <;> decide

theorem digitCh_ne_plus {d : Nat} (h : d < 10) : digitCh d ≠ '+' := by
  interval_cases d <;> decide

theorem digitCh_ne_colon {d : Nat} (h : d < 10) : digitCh d ≠ ':' := by
  interval_cases d <;> decide

theorem digitCh_ne_underscore {d : Nat} (h : d < 10) : digitCh d ≠ '_' := by
  interval_cases d <;> decide

theorem isPyWs_digitCh {d : Nat} (h : d < 10) : isPyWs (digitCh d) = false := by
  interval_cases d <;> rfl

theorem dropWhile_all_false {p : Char → Bool} :
    ∀ {cs : List Char}, (∀ c ∈ cs, p c = false) → cs.dropWhile p = cs := by
  intro cs
  induction cs with
  | nil => intro _; rfl
  | cons c cs ih =>
    intro h
    have hc : p c = false := h c (List.mem_cons_self _ _)
    simp [List.dropWhile_cons, hc]

theorem pyStrip_eq_self {cs : List Char} (h : ∀ c ∈ cs, isPyWs c = false) :
    pyStrip cs = cs := by
  unfold pyStrip
  rw [dropWhile_all_false h]
  rw [dropWhile_all_false fun c hc => h c (List.mem_reverse.mp hc)]
  exact List.reverse_reverse cs

theorem pyDigitsTail_digits :
    ∀ (ds : List Nat) (acc : Nat), (∀ d ∈ ds, d < 10) →
      pyDigitsTail acc (ds.map digitCh) = some (ds.foldl (fun a d => a * 10 + d) acc) := by
  intro ds
  induction ds with
  | nil => intro acc _; rfl
  | cons d ds ih =>
    intro acc h
    have hd : d < 10 := h d (List.mem_cons_self _ _)
    have hrest : ∀ x ∈ ds, x < 10 := fun x hx => h x (List.mem_cons_of_mem _ hx)
    have hu : (digitCh d = '_') = False := by
      simp [digitCh_ne_underscore hd]
    simp only [List.map_cons, List.foldl_cons]
    rw [pyDigitsTail.eq_def]
    simp only [hu, if_false, isDigitCh_digitCh hd, if_true, digitVal_digitCh hd]
    exact ih (acc * 10 + d) hrest

theorem pyDigits_digits (d0 : Nat) (ds : List Nat) (h0 : d0 < 10)
    (h : ∀ d ∈ ds, d < 10) :
    pyDigits ((d0 :: ds).map digitCh) = some (digitsVal (d0 :: ds)) := by
  simp only [List.map_cons, pyDigits, isDigitCh_digitCh h0, if_true, digitVal_digitCh h0]
  rw [pyDigitsTail_digits ds d0 h]
  unfold digitsVal
  simp

theorem pyInt_digitChars (d0 : Nat) (ds : List Nat) (h0 : d0 < 10)
    (h : ∀ d ∈ ds, d < 10) :
    pyInt ((d0 :: ds).map digitCh) = some ((digitsVal (d0 :: ds) : Int)) := by
  have hws : ∀ c ∈ (d0 :: ds).map digitCh, isPyWs c = false := by
    intro c hc
    obtain ⟨d, hd, rfl⟩ := List.mem_map.mp hc
    have : d < 10 := by
      rcases List.mem_cons.mp hd with rfl | hd'
      · exact h0
      · exact h d hd'
    exact isPyWs_digitCh this
  unfold pyInt
  rw [pyStrip_eq_self hws]
  show (if digitCh d0 = '-' then (pyDigits (ds.map digitCh)).map (fun n => -(n : Int))
    else if digitCh d0 = '+' then (pyDigits (ds.map digitCh)).map (fun n => (n : Int))
    else (pyDigits (digitCh d0 :: ds.map digitCh)).map (fun n => (n : Int)))
    = some ((digitsVal (d0 :: ds) : Int))
  rw [if_neg (digitCh_ne_dash h0), if_neg (digitCh_ne_plus h0)]
  rw [show digitCh d0 :: ds.map digitCh = (d0 :: ds).map digitCh from rfl]
  rw [pyDigits_digits d0 ds h0 h]
  rfl

theorem foldl_decDigitsF :
    ∀ fuel n acc, n ≤ fuel →
      (decDigitsF fuel n).foldl (fun a d => a * 10 + d) acc =
        acc * 10 ^ (decDigitsF fuel n).length + n := by
  intro fuel
  induction fuel with
  | zero =>
    intro n acc hn
    have : n = 0 := by omega
    subst this
    simp [decDigitsF]
  | succ f ih =>
    intro n acc hn
    by_cases h10 : n < 10
    · rw [decDigitsF_small _ _ h10]
      simp
    · simp only [decDigitsF, if_neg h10]
      rw [List.foldl_append, ih (n / 10) acc (by omega)]
      simp only [List.foldl_cons, List.foldl_nil, List.length_append, List.length_singleton]
      have hpow : (10 : Nat) ^ ((decDigitsF f (n / 10)).length + 1) =
          10 ^ (decDigitsF f (n / 10)).length * 10 := pow_succ 10 _
      rw [hpow]
      have hdm : n / 10 * 10 + n % 10 = n := by omega
      calc (acc * 10 ^ (decDigitsF f (n / 10)).length + n / 10) * 10 + n % 10
          = acc * (10 ^ (decDigitsF f (n / 10)).length * 10) + (n / 10 * 10 + n % 10) := by ring
        _ = acc * (10 ^ (decDigitsF f (n / 10)).length * 10) + n := by rw [hdm]

theorem digitsVal_decDigits (n : Nat) : digitsVal (decDigits n) = n := by
  unfold digitsVal decDigits
  rw [foldl_decDigitsF n n 0 le_rfl]
  simp

theorem pyInt_natToDec (n : Nat) : pyInt (natToDec n) = some (n : Int) := by
  unfold natToDec
  obtain ⟨d0, ds, hds⟩ : ∃ d0 ds, decDigits n = d0 :: ds := by
    cases h : decDigits n with
    | nil => exact absurd h (by unfold decDigits; exact decDigitsF_ne_nil n n)
    | cons d0 ds => exact ⟨d0, ds, rfl⟩
  rw [hds]
  have hall := decDigits_lt10 n
  rw [hds] at hall
  rw [pyInt_digitChars d0 ds (hall d0 (List.mem_cons_self _ _))
    (fun d hd => hall d (List.mem_cons_of_mem _ hd))]
  rw [← hds, digitsVal_decDigits]

theorem pyInt_pad2 (m : Nat) (h : m < 100) : pyInt (pad2 m) = some (m : Int) := by
  rw [pad2_eval m h]
  rw [show [digitCh (m / 10), digitCh (m % 10)] = [m / 10, m % 10].map digitCh from rfl]
  rw [pyInt_digitChars (m / 10) [m % 10] (by omega) (by intro d hd; simp at hd; omega)]
  have : digitsVal [m / 10, m % 10] = m := by
    unfold digitsVal
    simp
    omega
  rw [this]


/-! ### `rsplit` on colon-free components -/

theorem reverse_append_cons (a b : List Char) (c : Char) :
    (a ++ c :: b).reverse = b.reverse ++ c :: a.reverse := by
  simp [List.reverse_append]

theorem pyRsplit_single {sep : Char} {a : List Char} (ha : sep ∉ a) :
    pyRsplit 2 sep a = [a] := by
  unfold pyRsplit lsplitMax
  rw [splitFirst_eq_none (fun h => ha (List.mem_reverse.mp h))]
  simp

theorem pyRsplit_two {sep : Char} {a b : List Char} (ha : sep ∉ a) (hb : sep ∉ b) :
    pyRsplit 2 sep (a ++ sep :: b) = [a, b] := by
  unfold pyRsplit
  rw [reverse_append_cons]
  rw [show lsplitMax 2 sep (b.reverse ++ sep :: a.reverse) =
      match splitFirst sep (b.reverse ++ sep :: a.reverse) with
      | none => [b.reverse ++ sep :: a.reverse]
      | some (l, r) => l :: lsplitMax 1 sep r from rfl]
  rw [splitFirst_append (fun h => hb (List.mem_reverse.mp h))]
  show (List.map List.reverse (b.reverse :: lsplitMax 1 sep a.reverse)).reverse = [a, b]
  rw [show lsplitMax 1 sep a.reverse =
      match splitFirst sep a.reverse with
      | none => [a.reverse]
      | some (l, r) => l :: lsplitMax 0 sep r from rfl]
  rw [splitFirst_eq_none (fun h => ha (List.mem_reverse.mp h))]
  simp

theorem pyRsplit_three {sep : Char} {a b c : List Char}
    (hb : sep ∉ b) (hc : sep ∉ c) :
    pyRsplit 2 sep (a ++ sep :: b ++ sep :: c) = [a, b, c] := by
  have hshape : a ++ sep :: b ++ sep :: c = a ++ sep :: (b ++ sep :: c) := by
    simp
  rw [hshape]
  unfold pyRsplit
  rw [reverse_append_cons]
  have hshape2 : (b ++ sep :: c).reverse = c.reverse ++ sep :: b.reverse :=
    reverse_append_cons b c sep
  rw [hshape2]
  have hassoc : c.reverse ++ sep :: b.reverse ++ sep :: a.reverse =
      c.reverse ++ sep :: (b.reverse ++ sep :: a.reverse) := by
    simp
  rw [hassoc]
  rw [show lsplitMax 2 sep (c.reverse ++ sep :: (b.reverse ++ sep :: a.reverse)) =
      match splitFirst sep (c.reverse ++ sep :: (b.reverse ++ sep :: a.reverse)) with
      | none => [c.reverse ++ sep :: (b.reverse ++ sep :: a.reverse)]
      | some (l, r) => l :: lsplitMax 1 sep r from rfl]
  rw [splitFirst_append (fun h => hc (List.mem_reverse.mp h))]
  show (List.map List.reverse
      (c.reverse :: lsplitMax 1 sep (b.reverse ++ sep :: a.reverse))).reverse = [a, b, c]
  rw [show lsplitMax 1 sep (b.reverse ++ sep :: a.reverse) =
      match splitFirst sep (b.reverse ++ sep :: a.reverse) with
      | none => [b.reverse ++ sep :: a.reverse]
      | some (l, r) => l :: lsplitMax 0 sep r from rfl]
  rw [splitFirst_append (fun h => hb (List.mem_reverse.mp h))]
  show (List.map List.reverse
      (c.reverse :: b.reverse :: lsplitMax 0 sep a.reverse)).reverse = [a, b, c]
  simp [lsplitMax]


/-! ### Round-trip of the display rendering -/

theorem natToDec_shape (n : Nat) : ∃ d0 ds, d0 < 10 ∧ natToDec n = digitCh d0 :: ds := by
  unfold natToDec
  cases h : decDigits n with
  | nil => exact absurd h (by unfold decDigits; exact decDigitsF_ne_nil n n)
  | cons d0 ds =>
    refine ⟨d0, ds.map digitCh, ?_, rfl⟩
    have := decDigits_lt10 n
    rw [h] at this
    exact this d0 (List.mem_cons_self _ _)

theorem head_natToDec_append_ne_dash (n : Nat) (rest : List Char) :
    ¬ ((natToDec n ++ rest).head? = some '-') := by
  obtain ⟨d0, ds, hd0, hshape⟩ := natToDec_shape n
  rw [hshape]
  intro h
  simp at h
  exact digitCh_ne_dash hd0 h

theorem head_natToDec_ne_dash (n : Nat) : ¬ ((natToDec n).head? = some '-') := by
  obtain ⟨d0, ds, hd0, hshape⟩ := natToDec_shape n
  rw [hshape]
  intro h
  simp at h
  exact digitCh_ne_dash hd0 h

theorem colon_not_mem_natToDec (n : Nat) : ':' ∉ natToDec n := by
  intro h
  obtain ⟨d, hd, he⟩ := List.mem_map.mp h
  exact digitCh_ne_colon (decDigits_lt10 n d hd) he

theorem colon_not_mem_pad2 (m : Nat) : ':' ∉ pad2 m := by
  unfold pad2
  by_cases hm : m < 10
  · rw [if_pos hm]
    intro h
    rcases List.mem_cons.mp h with he | he
    · exact absurd he.symm (by decide)
    · exact colon_not_mem_natToDec m he
  · rw [if_neg hm]
    exact colon_not_mem_natToDec m

theorem lstripDash_cons_dash (cs : List Char) : lstripDash ('-' :: cs) = lstripDash cs := by
  simp [lstripDash, List.dropWhile_cons]

theorem lstripDash_natToDec_append (n : Nat) (rest : List Char) :
    lstripDash (natToDec n ++ rest) = natToDec n ++ rest := by
  obtain ⟨d0, ds, hd0, hshape⟩ := natToDec_shape n
  rw [hshape]
  simp [lstripDash, List.dropWhile_cons, digitCh_ne_dash hd0]

theorem mapM_pyInt_one {x : List Char} {vx : Int} (hx : pyInt x = some vx) :
    List.mapM pyInt [x] = some [vx] := by
  simp [List.mapM, List.mapM.loop, hx]

theorem mapM_pyInt_two {x y : List Char} {vx vy : Int}
    (hx : pyInt x = some vx) (hy : pyInt y = some vy) :
    List.mapM pyInt [x, y] = some [vx, vy] := by
  simp [List.mapM, List.mapM.loop, hx, hy]

theorem mapM_pyInt_three {x y z : List Char} {vx vy vz : Int}
    (hx : pyInt x = some vx) (hy : pyInt y = some vy) (hz : pyInt z = some vz) :
    List.mapM pyInt [x, y, z] = some [vx, vy, vz] := by
  simp [List.mapM, List.mapM.loop, hx, hy, hz]

theorem timedelta_components_true (d : Int) :
    timedelta_components d true =
      (if 0 ≤ d then 1 else -1, d.natAbs / 3600, d.natAbs % 3600 / 60, d.natAbs % 60) := by
  simp only [timedelta_components, if_true]
  refine Prod.ext rfl (Prod.ext rfl (Prod.ext ?_ ?_)) <;> simp <;> omega

theorem timedelta_from_str_eval_unsigned (s : String) (parts : List Int)
    (hhead : ¬ s.data.head? = some '-')
    (hparts : List.mapM pyInt (pyRsplit 2 ':' s.data) = some parts)
    (hnn : parts.any (· < 0) = false) :
    timedelta_from_str s =
      .ok (((parts.reverse.get? 2).getD 0) * 3600 + ((parts.reverse.get? 1).getD 0) * 60 +
        ((parts.reverse.get? 0).getD 0)) := by
  have hc : (s.data.head? = some '-') = False := by simp [hhead]
  simp only [timedelta_from_str, hc, if_false]
  rw [hparts]
  show (if (parts.any fun x => decide (x < 0)) = true then Except.error (Err.parseTimedelta s)
      else Except.ok (1 * ((parts.reverse.get? 2).getD 0 * 3600 +
        (parts.reverse.get? 1).getD 0 * 60 + (parts.reverse.get? 0).getD 0))) =
    Except.ok ((parts.reverse.get? 2).getD 0 * 3600 + (parts.reverse.get? 1).getD 0 * 60 +
      (parts.reverse.get? 0).getD 0)
  rw [hnn]
  simp

theorem timedelta_from_str_eval_signed (s : String) (body : List Char) (parts : List Int)
    (hhead : s.data.head? = some '-')
    (hstrip : lstripDash s.data = body)
    (hparts : List.mapM pyInt (pyRsplit 2 ':' body) = some parts)
    (hnn : parts.any (· < 0) = false) :
    timedelta_from_str s =
      .ok (-(((parts.reverse.get? 2).getD 0) * 3600 + ((parts.reverse.get? 1).getD 0) * 60 +
        ((parts.reverse.get? 0).getD 0))) := by
  have hc : (s.data.head? = some '-') = True := by simp [hhead]
  simp only [timedelta_from_str, hc, if_true]
  rw [hstrip, hparts]
  show (if (parts.any fun x => decide (x < 0)) = true then Except.error (Err.parseTimedelta s)
      else Except.ok (-1 * ((parts.reverse.get? 2).getD 0 * 3600 +
        (parts.reverse.get? 1).getD 0 * 60 + (parts.reverse.get? 0).getD 0))) =
    Except.ok (-((parts.reverse.get? 2).getD 0 * 3600 + (parts.reverse.get? 1).getD 0 * 60 +
      (parts.reverse.get? 0).getD 0))
  rw [hnn]
  simp


theorem timedelta_to_str_hours {d sign : Int} {H M S : Nat}
    (hc : timedelta_components d true = (sign, H, M, S)) (hH : H > 0) :
    timedelta_to_str d = ⟨(if sign < 0 then ['-'] else []) ++ natToDec H ++
      ':' :: pad2 M ++ ':' :: pad2 S⟩ := by
  rw [timedelta_to_str, hc]
  show (if H > 0 then (⟨(if sign < 0 then ['-'] else []) ++ natToDec H ++
        ':' :: pad2 M ++ ':' :: pad2 S⟩ : String)
      else if M > 0 then ⟨(if sign < 0 then ['-'] else []) ++ natToDec M ++ ':' :: pad2 S⟩
      else ⟨(if sign < 0 then ['-'] else []) ++ natToDec S⟩) = _
  rw [if_pos hH]

theorem timedelta_to_str_minutes {d sign : Int} {H M S : Nat}
    (hc : timedelta_components d true = (sign, H, M, S)) (hH : ¬ H > 0) (hM : M > 0) :
    timedelta_to_str d = ⟨(if sign < 0 then ['-'] else []) ++ natToDec M ++
      ':' :: pad2 S⟩ := by
  rw [timedelta_to_str, hc]
  show (if H > 0 then (⟨(if sign < 0 then ['-'] else []) ++ natToDec H ++
        ':' :: pad2 M ++ ':' :: pad2 S⟩ : String)
      else if M > 0 then ⟨(if sign < 0 then ['-'] else []) ++ natToDec M ++ ':' :: pad2 S⟩
      else ⟨(if sign < 0 then ['-'] else []) ++ natToDec S⟩) = _
  rw [if_neg hH, if_pos hM]

theorem timedelta_to_str_seconds {d sign : Int} {H M S : Nat}
    (hc : timedelta_components d true = (sign, H, M, S)) (hH : ¬ H > 0) (hM : ¬ M > 0) :
    timedelta_to_str d = ⟨(if sign < 0 then ['-'] else []) ++ natToDec S⟩ := by
  rw [timedelta_to_str, hc]
  show (if H > 0 then (⟨(if sign < 0 then ['-'] else []) ++ natToDec H ++
        ':' :: pad2 M ++ ':' :: pad2 S⟩ : String)
      else if M > 0 then ⟨(if sign < 0 then ['-'] else []) ++ natToDec M ++ ':' :: pad2 S⟩
      else ⟨(if sign < 0 then ['-'] else []) ++ natToDec S⟩) = _
  rw [if_neg hH, if_neg hM]

theorem any_neg_false_three (a b c : Nat) :
    ([(a : Int), (b : Int), (c : Int)].any (· < 0)) = false := by
  have h1 : ¬((a : Int) < 0) := by omega
  have h2 : ¬((b : Int) < 0) := by omega
  have h3 : ¬((c : Int) < 0) := by omega
  simp [h1, h2, h3]

theorem any_neg_false_two (a b : Nat) :
    ([(a : Int), (b : Int)].any (· < 0)) = false := by
  have h1 : ¬((a : Int) < 0) := by omega
  have h2 : ¬((b : Int) < 0) := by omega
  simp [h1, h2]

theorem any_neg_false_one (a : Nat) : ([(a : Int)].any (· < 0)) = false := by
  have h1 : ¬((a : Int) < 0) := by omega
  simp [h1]

/-- Unsigned round-trip over the three display shapes: parsing the
rendering of the clamped components recovers the total second count. -/
theorem timedelta_parse_body (H M S : Nat) (hM : M < 100) (hS : S < 100) :
    (if H > 0 then
      timedelta_from_str ⟨natToDec H ++ ':' :: pad2 M ++ ':' :: pad2 S⟩ =
        .ok ((H : Int) * 3600 + M * 60 + S)
    else if M > 0 then
      timedelta_from_str ⟨natToDec M ++ ':' :: pad2 S⟩ = .ok ((M : Int) * 60 + S)
    else
      timedelta_from_str ⟨natToDec S⟩ = .ok (S : Int)) := by
  by_cases hH : H > 0
  · rw [if_pos hH]
    have hsplit : pyRsplit 2 ':' (natToDec H ++ ':' :: pad2 M ++ ':' :: pad2 S) =
        [natToDec H, pad2 M, pad2 S] :=
      pyRsplit_three (colon_not_mem_pad2 M) (colon_not_mem_pad2 S)
    have hmap := mapM_pyInt_three (pyInt_natToDec H) (pyInt_pad2 M hM) (pyInt_pad2 S hS)
    have := timedelta_from_str_eval_unsigned ⟨natToDec H ++ ':' :: pad2 M ++ ':' :: pad2 S⟩
      [(H : Int), M, S]
      (show ¬ ((natToDec H ++ ':' :: pad2 M ++ ':' :: pad2 S).head? = some '-') by
        rw [List.append_assoc]
        exact head_natToDec_append_ne_dash H _)
      (by rw [show (String.mk (natToDec H ++ ':' :: pad2 M ++ ':' :: pad2 S)).data =
          natToDec H ++ ':' :: pad2 M ++ ':' :: pad2 S from rfl, hsplit]; exact hmap)
      (any_neg_false_three H M S)
    rw [this]
    rfl
  · rw [if_neg hH]
    by_cases hM0 : M > 0
    · rw [if_pos hM0]
      have hsplit : pyRsplit 2 ':' (natToDec M ++ ':' :: pad2 S) = [natToDec M, pad2 S] :=
        pyRsplit_two (colon_not_mem_natToDec M) (colon_not_mem_pad2 S)
      have hmap := mapM_pyInt_two (pyInt_natToDec M) (pyInt_pad2 S hS)
      have := timedelta_from_str_eval_unsigned ⟨natToDec M ++ ':' :: pad2 S⟩
        [(M : Int), S]
        (show ¬ ((natToDec M ++ ':' :: pad2 S).head? = some '-') from
          head_natToDec_append_ne_dash M _)
        (by rw [show (String.mk (natToDec M ++ ':' :: pad2 S)).data =
            natToDec M ++ ':' :: pad2 S from rfl, hsplit]; exact hmap)
        (any_neg_false_two M S)
      rw [this]
      simp
    · rw [if_neg hM0]
      have hsplit : pyRsplit 2 ':' (natToDec S) = [natToDec S] :=
        pyRsplit_single (colon_not_mem_natToDec S)
      have hmap := mapM_pyInt_one (pyInt_natToDec S)
      have := timedelta_from_str_eval_unsigned ⟨natToDec S⟩
        [(S : Int)] (head_natToDec_ne_dash S)
        (by rw [show (String.mk (natToDec S)).data = natToDec S from rfl, hsplit]
            exact hmap)
        (any_neg_false_one S)
      rw [this]
      simp


theorem lstripDash_natToDec_append3 (n : Nat) (X Y : List Char) :
    lstripDash (natToDec n ++ X ++ Y) = natToDec n ++ X ++ Y := by
  rw [List.append_assoc]
  exact lstripDash_natToDec_append n _

/-- Signed round-trip over the three display shapes. -/
theorem timedelta_parse_body_signed (H M S : Nat) (hM : M < 100) (hS : S < 100) :
    (if H > 0 then
      timedelta_from_str ⟨'-' :: (natToDec H ++ ':' :: pad2 M ++ ':' :: pad2 S)⟩ =
        .ok (-((H : Int) * 3600 + M * 60 + S))
    else if M > 0 then
      timedelta_from_str ⟨'-' :: (natToDec M ++ ':' :: pad2 S)⟩ = .ok (-((M : Int) * 60 + S))
    else
      timedelta_from_str ⟨'-' :: natToDec S⟩ = .ok (-(S : Int))) := by
  by_cases hH : H > 0
  · rw [if_pos hH]
    have hsplit : pyRsplit 2 ':' (natToDec H ++ ':' :: pad2 M ++ ':' :: pad2 S) =
        [natToDec H, pad2 M, pad2 S] :=
      pyRsplit_three (colon_not_mem_pad2 M) (colon_not_mem_pad2 S)
    have hmap := mapM_pyInt_three (pyInt_natToDec H) (pyInt_pad2 M hM) (pyInt_pad2 S hS)
    have := timedelta_from_str_eval_signed
      ⟨'-' :: (natToDec H ++ ':' :: pad2 M ++ ':' :: pad2 S)⟩
      (natToDec H ++ ':' :: pad2 M ++ ':' :: pad2 S)
      [(H : Int), M, S] rfl
      (by show lstripDash ('-' :: (natToDec H ++ ':' :: pad2 M ++ ':' :: pad2 S)) = _
          rw [lstripDash_cons_dash]
          exact lstripDash_natToDec_append3 H _ _)
      (by rw [hsplit]; exact hmap)
      (any_neg_false_three H M S)
    rw [this]
    rfl
  · rw [if_neg hH]
    by_cases hM0 : M > 0
    · rw [if_pos hM0]
      have hsplit : pyRsplit 2 ':' (natToDec M ++ ':' :: pad2 S) = [natToDec M, pad2 S] :=
        pyRsplit_two (colon_not_mem_natToDec M) (colon_not_mem_pad2 S)
      have hmap := mapM_pyInt_two (pyInt_natToDec M) (pyInt_pad2 S hS)
      have := timedelta_from_str_eval_signed
        ⟨'-' :: (natToDec M ++ ':' :: pad2 S)⟩
        (natToDec M ++ ':' :: pad2 S)
        [(M : Int), S] rfl
        (by show lstripDash ('-' :: (natToDec M ++ ':' :: pad2 S)) = _
            rw [lstripDash_cons_dash]
            exact lstripDash_natToDec_append M _)
        (by rw [hsplit]; exact hmap)
        (any_neg_false_two M S)
      rw [this]
      simp
    · rw [if_neg hM0]
      have hsplit : pyRsplit 2 ':' (natToDec S) = [natToDec S] :=
        pyRsplit_single (colon_not_mem_natToDec S)
      have hmap := mapM_pyInt_one (pyInt_natToDec S)
      have := timedelta_from_str_eval_signed
        ⟨'-' :: natToDec S⟩ (natToDec S)
        [(S : Int)] rfl
        (by show lstripDash ('-' :: natToDec S) = _
            rw [lstripDash_cons_dash]
            obtain ⟨d0, ds, hd0, hshape⟩ := natToDec_shape S
            rw [hshape]
            simp [lstripDash, List.dropWhile_cons, digitCh_ne_dash hd0])
        (by rw [hsplit]; exact hmap)
        (any_neg_false_one S)
      rw [this]
      simp

/-- Round-trip: parsing the display rendering of any whole-second
duration recovers exactly that duration. -/
theorem timedelta_display_roundtrip_value (d : Int) :
    timedelta_from_str (timedelta_to_str d) = .ok d := by
  have hcomp := timedelta_components_true d
  have hM100 : d.natAbs % 3600 / 60 < 100 := by omega
  have hS100 : d.natAbs % 60 < 100 := by omega
  by_cases hd : 0 ≤ d
  · rw [if_pos hd] at hcomp
    have hbody := timedelta_parse_body (d.natAbs / 3600) (d.natAbs % 3600 / 60)
      (d.natAbs % 60) hM100 hS100
    by_cases hH : d.natAbs / 3600 > 0
    · rw [if_pos hH] at hbody
      have hstr := timedelta_to_str_hours hcomp hH
      rw [if_neg (by omega : ¬ (1 : Int) < 0)] at hstr
      rw [show (([] : List Char) ++ natToDec (d.natAbs / 3600) ++
          ':' :: pad2 (d.natAbs % 3600 / 60) ++ ':' :: pad2 (d.natAbs % 60)) =
          natToDec (d.natAbs / 3600) ++ ':' :: pad2 (d.natAbs % 3600 / 60) ++
          ':' :: pad2 (d.natAbs % 60) by simp] at hstr
      rw [hstr, hbody]
      congr 1
      omega
    · by_cases hM0 : d.natAbs % 3600 / 60 > 0
      · rw [if_neg hH, if_pos hM0] at hbody
        have hstr := timedelta_to_str_minutes hcomp hH hM0
        rw [if_neg (by omega : ¬ (1 : Int) < 0)] at hstr
        rw [show (([] : List Char) ++ natToDec (d.natAbs % 3600 / 60) ++
            ':' :: pad2 (d.natAbs % 60)) =
            natToDec (d.natAbs % 3600 / 60) ++ ':' :: pad2 (d.natAbs % 60) by simp] at hstr
        rw [hstr, hbody]
        congr 1
        omega
      · rw [if_neg hH, if_neg hM0] at hbody
        have hstr := timedelta_to_str_seconds hcomp hH hM0
        rw [if_neg (by omega : ¬ (1 : Int) < 0)] at hstr
        rw [show (([] : List Char) ++ natToDec (d.natAbs % 60)) =
            natToDec (d.natAbs % 60) by simp] at hstr
        rw [hstr, hbody]
        congr 1
        omega
  · rw [if_neg hd] at hcomp
    have hbody := timedelta_parse_body_signed (d.natAbs / 3600) (d.natAbs % 3600 / 60)
      (d.natAbs % 60) hM100 hS100
    by_cases hH : d.natAbs / 3600 > 0
    · rw [if_pos hH] at hbody
      have hstr := timedelta_to_str_hours hcomp hH
      rw [if_pos (by omega : (-1 : Int) < 0)] at hstr
      rw [show ((['-'] : List Char) ++ natToDec (d.natAbs / 3600) ++
          ':' :: pad2 (d.natAbs % 3600 / 60) ++ ':' :: pad2 (d.natAbs % 60)) =
          '-' :: (natToDec (d.natAbs / 3600) ++ ':' :: pad2 (d.natAbs % 3600 / 60) ++
          ':' :: pad2 (d.natAbs % 60)) by simp] at hstr
      rw [hstr, hbody]
      congr 1
      omega
    · by_cases hM0 : d.natAbs % 3600 / 60 > 0
      · rw [if_neg hH, if_pos hM0] at hbody
        have hstr := timedelta_to_str_minutes hcomp hH hM0
        rw [if_pos (by omega : (-1 : Int) < 0)] at hstr
        rw [show ((['-'] : List Char) ++ natToDec (d.natAbs % 3600 / 60) ++
            ':' :: pad2 (d.natAbs % 60)) =
            '-' :: (natToDec (d.natAbs % 3600 / 60) ++ ':' :: pad2 (d.natAbs % 60)) by simp] at hstr
        rw [hstr, hbody]
        congr 1
        omega
      · rw [if_neg hH, if_neg hM0] at hbody
        have hstr := timedelta_to_str_seconds hcomp hH hM0
        rw [if_pos (by omega : (-1 : Int) < 0)] at hstr
        rw [show ((['-'] : List Char) ++ natToDec (d.natAbs % 60)) =
            '-' :: natToDec (d.natAbs % 60) by simp] at hstr
        rw [hstr, hbody]
        congr 1
        omega

/-- Claim C4: every string accepted by `timedelta_from_str` round-trips
through `timedelta_to_str` — the rendering is accepted again and parses
to the same duration value (the string itself need not be identical). -/
theorem duration_display_roundtrip (s : String) (d : Int)
    (_h : timedelta_from_str s = .ok d) :
    timedelta_from_str (timedelta_to_str d) = .ok d :=
  timedelta_display_roundtrip_value d

/-- Witness for `duration_display_roundtrip` at `s = "1:01:01"`. -/
theorem duration_display_roundtrip_witness :
    timedelta_from_str "1:01:01" = .ok 3661 ∧
      timedelta_from_str (timedelta_to_str 3661) = .ok 3661 :=
  ⟨rfl, duration_display_roundtrip "1:01:01" 3661 rfl⟩


/-! ### Runner behaviour -/

theorem runVideos_append_missing (fs : String → Bool) (cfg : Config) (srcDir dstDir : String) :
    ∀ (pre : List Video) (v : Video) (post : List Video),
      (∀ u ∈ pre, fs (u.srcPath cfg srcDir) = true) →
      fs (v.srcPath cfg srcDir) = false →
      runVideos fs cfg srcDir dstDir (pre ++ v :: post) =
        (pre.flatMap (Video.clipPaths cfg dstDir),
         some (.missingVideoFile (v.srcPath cfg srcDir))) := by
  intro pre
  induction pre with
  | nil =>
    intro v post _ hmiss
    simp [runVideos, Video.write_clips, hmiss]
  | cons u pre ih =>
    intro v post hpre hmiss
    have hu : fs (u.srcPath cfg srcDir) = true := hpre u (List.mem_cons_self _ _)
    have hrest := ih v post (fun w hw => hpre w (List.mem_cons_of_mem _ hw)) hmiss
    simp only [List.cons_append, runVideos, Video.write_clips, hu, if_true]
    simp [hrest]

/-- Claim C7: when a video's resolved source path is not an existing
file, `Job.run` stops at that video with the missing-file error naming
that exact path; the produced clip files are exactly those of the
videos before it (the check is lazy, per video), and nothing from that
video or later videos is produced. -/
theorem job_run_missing_source (fs : String → Bool) (cfg : Config) (j : Job)
    (pre : List Video) (v : Video) (post : List Video)
    (hvids : j.videos = pre ++ v :: post)
    (hpre : ∀ u ∈ pre, fs (u.srcPath cfg j.video_dir) = true)
    (hmiss : fs (v.srcPath cfg j.video_dir) = false) :
    j.run fs cfg =
      (pre.flatMap (Video.clipPaths cfg j.output_dir),
       some (.missingVideoFile (v.srcPath cfg j.video_dir))) := by
  rw [Job.run, hvids]
  exact runVideos_append_missing fs cfg j.video_dir j.output_dir pre v post hpre hmiss

/-- Witness for `job_run_missing_source`: a two-video job whose first
source exists and whose second does not; exactly the first video's clip
is produced and the error names the second source path. -/
theorem job_run_missing_source_witness :
    Job.run (fun s => s == "vid/1970-01-01 00-00-00.mkv") (Config.mk [])
      (Job.mk "out" "vid"
        [Video.mk ⟨1970, 1, 1, 0, 0, 0⟩ "a" [Clip.mk 2 1 "c1"] 0,
         Video.mk ⟨1971, 1, 1, 0, 0, 0⟩ "b" [Clip.mk 2 1 "c2"] 0]) =
      (["out/1970-01-01 00-00-00 - t+0h00m01s - a - c1.mkv"],
       some (.missingVideoFile "vid/1971-01-01 00-00-00.mkv")) :=
  (job_run_missing_source (fun s => s == "vid/1970-01-01 00-00-00.mkv") (Config.mk [])
    (Job.mk "out" "vid"
      [Video.mk ⟨1970, 1, 1, 0, 0, 0⟩ "a" [Clip.mk 2 1 "c1"] 0,
       Video.mk ⟨1971, 1, 1, 0, 0, 0⟩ "b" [Clip.mk 2 1 "c2"] 0])
    [Video.mk ⟨1970, 1, 1, 0, 0, 0⟩ "a" [Clip.mk 2 1 "c1"] 0]
    (Video.mk ⟨1971, 1, 1, 0, 0, 0⟩ "b" [Clip.mk 2 1 "c2"] 0)
    [] rfl
    (by
      intro u hu
      rw [List.mem_singleton.mp hu]
      rfl)
    rfl).trans rfl


/-! ### Document-loading validation -/

theorem allDicts_eq_none {xs : List Yaml} {x : Yaml} (hx : x ∈ xs)
    (hxd : x.isDict = false) : allDicts xs = none := by
  induction xs with
  | nil => cases hx
  | cons y ys ih =>
    rcases List.mem_cons.mp hx with rfl | hmem
    · cases x <;> simp_all [allDicts, Yaml.isDict]
    · cases y <;> simp_all [allDicts, Yaml.isDict]

theorem allDicts_mem {kvs : List (String × Yaml)} :
    ∀ {xs : List Yaml} {ds : List (List (String × Yaml))},
      allDicts xs = some ds → Yaml.dict kvs ∈ xs → kvs ∈ ds := by
  intro xs
  induction xs with
  | nil => intro ds _ hmem; cases hmem
  | cons y ys ih =>
    intro ds had hmem
    cases y with
    | dict k0 =>
      rcases hd : allDicts ys with _ | ds'
      · rw [allDicts, hd] at had
        cases had
      · rw [allDicts, hd] at had
        simp at had
        rcases List.mem_cons.mp hmem with he | hmem'
        · have : kvs = k0 := by injection he
          subst this
          rw [← had]
          exact List.mem_cons_self _ _
        · rw [← had]
          exact List.mem_cons_of_mem _ (ih hd hmem')
    | str s => simp [allDicts] at had
    | int n => simp [allDicts] at had
    | bool b => simp [allDicts] at had
    | null => simp [allDicts] at had
    | list l => simp [allDicts] at had

theorem video_from_dict_bad_clips (data : List (String × Yaml)) (cv : Yaml)
    (hclips : lookupA "clips" data = some cv)
    (hbad : cv.isList = false ∨ ∃ xs, cv = .list xs ∧ ∃ x ∈ xs, x.isDict = false) :
    ∃ e, Video.from_dict data = .error e := by
  cases hdate : lookupA "date" data with
  | none => exact ⟨.badVideoData data, by simp only [Video.from_dict, hdate]⟩
  | some dv =>
    cases hdt : datetime_from_str (pyStr dv) with
    | error e => exact ⟨e, by simp only [Video.from_dict, hdate, hdt]⟩
    | ok date =>
      cases htitle : lookupA "title" data with
      | none =>
        exact ⟨.badVideoData data, by simp only [Video.from_dict, hdate, hdt, htitle]⟩
      | some tv =>
        have hclipsE : (match lookupA "clips" data with
            | none => Except.ok ([] : List Clip)
            | some (.list xs) =>
              match allDicts xs with
              | some ds => parseClips ds
              | none => Except.error (.badVideoField "clips" (.list xs))
            | some v => Except.error (.badVideoField "clips" v)) =
            Except.error (.badVideoField "clips" cv) := by
          rw [hclips]
          rcases hbad with hb | ⟨xs, rfl, x, hx, hxd⟩
          · cases cv <;> simp_all [Yaml.isList]
          · simp only [allDicts_eq_none hx hxd]
        refine ⟨.badVideoField "clips" cv, ?_⟩
        simp only [Video.from_dict, hdate, hdt, htitle, hclipsE]

theorem parseVideos_error_of_mem :
    ∀ (ds : List (List (String × Yaml))) (data : List (String × Yaml)),
      data ∈ ds → (∃ e, Video.from_dict data = .error e) →
      ∃ e, parseVideos ds = .error e := by
  intro ds
  induction ds with
  | nil => intro data hmem _; cases hmem
  | cons d ds ih =>
    intro data hmem herr
    cases hv : Video.from_dict d with
    | error e =>
      refine ⟨e, ?_⟩
      simp only [parseVideos, hv]
      rfl
    | ok v =>
      rcases List.mem_cons.mp hmem with rfl | hmem'
      · obtain ⟨e, he⟩ := herr
        rw [hv] at he
        cases he
      · obtain ⟨e, he⟩ := ih data hmem' herr
        refine ⟨e, ?_⟩
        simp only [parseVideos, hv, he]
        rfl

/-- Claim C9: a job document in which some video's `clips` value is not
a list, or is a list containing a non-mapping entry, fails `Job`
construction with an error; loading is a pure function separate from
`Job.run`, so the failure happens during document loading, before any
trim invocation can occur. -/
theorem job_from_dict_rejects_bad_clips (jd : List (String × Yaml)) (vs : List Yaml)
    (vkvs : List (String × Yaml)) (cv : Yaml)
    (hvids : lookupA "videos" jd = some (.list vs))
    (hmem : Yaml.dict vkvs ∈ vs)
    (hclips : lookupA "clips" vkvs = some cv)
    (hbad : cv.isList = false ∨ ∃ xs, cv = .list xs ∧ ∃ x ∈ xs, x.isDict = false) :
    ∃ e, Job.from_dict jd = .error e := by
  cases had : allDicts vs with
  | none =>
    cases hf : vs.find? (fun x => !x.isDict) with
    | none => exact ⟨.invalidVideos (.list vs), by unfold Job.from_dict; rw [hvids]; simp [had, hf]⟩
    | some bad => exact ⟨.invalidVideoEntry bad, by unfold Job.from_dict; rw [hvids]; simp [had, hf]⟩
  | some ds =>
    have hm2 : vkvs ∈ ds := allDicts_mem had hmem
    have hverr := video_from_dict_bad_clips vkvs cv hclips hbad
    obtain ⟨e, hpv⟩ := parseVideos_error_of_mem ds vkvs hm2 hverr
    exact ⟨e, by unfold Job.from_dict; rw [hvids]; simp [had, hpv]⟩

/-- Witness for `job_from_dict_rejects_bad_clips` at a document whose
only video has `clips: "x"` (a string instead of a list). -/
theorem job_from_dict_rejects_bad_clips_witness :
    ∃ e, Job.from_dict
      [("videos", Yaml.list [Yaml.dict [("clips", Yaml.str "x"),
        ("date", Yaml.str "1970-01-01T00:00:00"), ("title", Yaml.str "t")]])] =
      .error e :=
  job_from_dict_rejects_bad_clips _
    [Yaml.dict [("clips", Yaml.str "x"),
      ("date", Yaml.str "1970-01-01T00:00:00"), ("title", Yaml.str "t")]]
    [("clips", Yaml.str "x"), ("date", Yaml.str "1970-01-01T00:00:00"),
      ("title", Yaml.str "t")]
    (Yaml.str "x") rfl (List.mem_singleton.mpr rfl) rfl (Or.inl rfl)


/-! ### Character-class facts for the `strptime` matchers -/

theorem inCls_digitCh_true {v lo hi : Nat} (hv : v < 10)
    (h1 : lo ≤ 48 + v) (h2 : 48 + v ≤ hi) : inCls (digitCh v) lo hi = true := by
  unfold inCls
  rw [digitCh_toNat hv]
  simp [h1, h2]

theorem inCls_digitCh_false {v lo hi : Nat} (hv : v < 10)
    (h : 48 + v < lo ∨ hi < 48 + v) : inCls (digitCh v) lo hi = false := by
  unfold inCls
  rw [digitCh_toNat hv]
  rcases h with h | h <;> simp <;> omega

theorem digitCh_inj {a b : Nat} (ha : a < 10) (hb : b < 10) :
    digitCh a = digitCh b ↔ a = b := by
  constructor
  · intro h
    have := congrArg Char.toNat h
    rw [digitCh_toNat ha, digitCh_toNat hb] at this
    omega
  · intro h
    rw [h]

theorem decide_digitCh_eq_false {a b : Nat} (ha : a < 10) (hb : b < 10) (hne : a ≠ b) :
    decide (digitCh a = digitCh b) = false := by
  simp [digitCh_inj ha hb, hne]


theorem isDigitCh_not_ws {c : Char} (h : isPyWs c = true) : isDigitCh c = false := by
  unfold isPyWs at h
  unfold isDigitCh
  rcases Bool.or_eq_true_iff.mp h with h' | h'
  case _ =>
    rcases Bool.or_eq_true_iff.mp h' with h'' | h''
    case _ =>
      rcases Bool.or_eq_true_iff.mp h'' with h3 | h3
      case _ =>
        rcases Bool.or_eq_true_iff.mp h3 with h4 | h4
        case _ =>
          rcases Bool.or_eq_true_iff.mp h4 with h5 | h5 <;>
            (rw [show c = _ from of_decide_eq_true (by assumption)]; rfl)
        case _ => rw [show c = _ from of_decide_eq_true h4]; rfl
      case _ => rw [show c = _ from of_decide_eq_true h3]; rfl
    case _ => rw [show c = _ from of_decide_eq_true h'']; rfl
  case _ => rw [show c = _ from of_decide_eq_true h']; rfl

/-! ### `strptime` field-matcher evaluation on rendered components -/

theorem natToDec_two {m : Nat} (h1 : 10 ≤ m) (h2 : m < 100) :
    natToDec m = rend2 m := by
  have := pad2_eval m h2
  unfold pad2 at this
  rw [if_neg (by omega)] at this
  exact this

theorem matchYear_rend {y : Nat} (hy : y ≤ 9999) (rest : List Char) :
    matchYear (rendYear4 y ++ rest) = some (y, rest) := by
  have e : rendYear4 y ++ rest = digitCh (y / 1000) :: digitCh (y / 100 % 10) ::
      digitCh (y / 10 % 10) :: digitCh (y % 10) :: rest := rfl
  rw [e, matchYear]
  rw [isDigitCh_digitCh (by omega), isDigitCh_digitCh (by omega),
    isDigitCh_digitCh (by omega), isDigitCh_digitCh (by omega)]
  simp only [Bool.and_self, if_true]
  rw [digitVal_digitCh (by omega), digitVal_digitCh (by omega),
    digitVal_digitCh (by omega), digitVal_digitCh (by omega)]
  have : ((y / 1000 * 10 + y / 100 % 10) * 10 + y / 10 % 10) * 10 + y % 10 = y := by omega
  rw [this]

theorem matchLit_cons (l : Char) (rest : List Char) : matchLit l (l :: rest) = some rest := by
  simp [matchLit]


theorem matchMonth_rend2 {mo : Nat} (h1 : 1 ≤ mo) (h2 : mo ≤ 12) (rest : List Char) :
    matchMonth (rend2 mo ++ rest) = some (mo, rest) := by
  have e : rend2 mo ++ rest = digitCh (mo / 10) :: digitCh (mo % 10) :: rest := rfl
  rw [e]
  by_cases hm : mo < 10
  · have hmod : mo % 10 = mo := by omega
    rw [show digitCh (mo / 10) = '0' by rw [show mo / 10 = 0 by omega]; rfl]
    rw [matchMonth]
    simp only [show decide (('0' : Char) = '1') = false from rfl, Bool.false_and,
      show decide (('0' : Char) = '0') = true from rfl, Bool.true_and,
      inCls_digitCh_true (show mo % 10 < 10 by omega) (show 49 ≤ 48 + mo % 10 by omega)
        (show 48 + mo % 10 ≤ 57 by omega)]
    simp [digitVal_digitCh (show mo % 10 < 10 by omega), hmod]
    exact digitVal_digitCh (by omega)
  · rw [show digitCh (mo / 10) = '1' by rw [show mo / 10 = 1 by omega]; rfl]
    rw [matchMonth]
    simp only [show decide (('1' : Char) = '1') = true from rfl, Bool.true_and,
      inCls_digitCh_true (show mo % 10 < 10 by omega) (show 48 ≤ 48 + mo % 10 by omega)
        (show 48 + mo % 10 ≤ 50 by omega)]
    simp [digitVal_digitCh (show mo % 10 < 10 by omega)]
    omega


theorem inCls_sub_digit_false (c : Char) (lo hi : Nat) (hlo : 48 ≤ lo) (hhi : hi ≤ 57)
    (hc : isDigitCh c = false) : inCls c lo hi = false := by
  unfold isDigitCh at hc
  unfold inCls
  simp at hc ⊢
  omega

theorem matchMonth_single {mo : Nat} (h1 : 1 ≤ mo) (h2 : mo ≤ 9) (rest : List Char) :
    matchMonth (digitCh mo :: '-' :: rest) = some (mo, '-' :: rest) := by
  rw [matchMonth]
  simp only [show inCls '-' 48 50 = false from rfl, Bool.and_false,
    show ('0' : Char) = digitCh 0 from rfl,
    decide_digitCh_eq_false (show mo < 10 by omega) (by omega) (show mo ≠ 0 by omega),
    Bool.false_and,
    inCls_digitCh_true (show mo < 10 by omega) (show 49 ≤ 48 + mo by omega)
      (show 48 + mo ≤ 57 by omega)]
  simp [digitVal_digitCh (show mo < 10 by omega)]

theorem matchDay_rend2 {d : Nat} (h1 : 1 ≤ d) (h2 : d ≤ 31) (rest : List Char) :
    matchDay (rend2 d ++ rest) = some (d, rest) := by
  have e : rend2 d ++ rest = digitCh (d / 10) :: digitCh (d % 10) :: rest := rfl
  rw [e]
  by_cases hd9 : d < 10
  · rw [show digitCh (d / 10) = '0' by rw [show d / 10 = 0 by omega]; rfl]
    have hmod : d % 10 = d := by omega
    rw [matchDay]
    simp only [show decide (('0' : Char) = '3') = false from rfl, Bool.false_and,
      show inCls '0' 49 50 = false from rfl,
      show decide (('0' : Char) = '0') = true from rfl, Bool.true_and,
      inCls_digitCh_true (show d % 10 < 10 by omega) (show 49 ≤ 48 + d % 10 by omega)
        (show 48 + d % 10 ≤ 57 by omega)]
    simp [digitVal_digitCh (show d % 10 < 10 by omega), hmod]
    exact digitVal_digitCh (by omega)
  · by_cases hd20 : d < 20
    · rw [show digitCh (d / 10) = '1' by rw [show d / 10 = 1 by omega]; rfl]
      rw [matchDay]
      simp only [show decide (('1' : Char) = '3') = false from rfl, Bool.false_and,
        show inCls '1' 49 50 = true from rfl, Bool.true_and,
        isDigitCh_digitCh (show d % 10 < 10 by omega), if_true]
      simp [digitVal_digitCh (show d % 10 < 10 by omega),
        show digitVal '1' = 1 from rfl]
      omega
    · by_cases hd30 : d < 30
      · rw [show digitCh (d / 10) = '2' by rw [show d / 10 = 2 by omega]; rfl]
        rw [matchDay]
        simp only [show decide (('2' : Char) = '3') = false from rfl, Bool.false_and,
          show inCls '2' 49 50 = true from rfl, Bool.true_and,
          isDigitCh_digitCh (show d % 10 < 10 by omega), if_true]
        simp [digitVal_digitCh (show d % 10 < 10 by omega),
          show digitVal '2' = 2 from rfl]
        omega
      · rw [show digitCh (d / 10) = '3' by rw [show d / 10 = 3 by omega]; rfl]
        rw [matchDay]
        simp only [show decide (('3' : Char) = '3') = true from rfl, Bool.true_and,
          inCls_digitCh_true (show d % 10 < 10 by omega) (show 48 ≤ 48 + d % 10 by omega)
            (show 48 + d % 10 ≤ 49 by omega), if_true]
        simp [digitVal_digitCh (show d % 10 < 10 by omega)]
        omega

theorem matchDay_single {d : Nat} (h1 : 1 ≤ d) (h2 : d ≤ 9) (c : Char) (rest : List Char)
    (hc : isDigitCh c = false) :
    matchDay (digitCh d :: c :: rest) = some (d, c :: rest) := by
  rw [matchDay]
  simp only [inCls_sub_digit_false c 48 49 (by omega) (by omega) hc, Bool.and_false, hc,
    show ('0' : Char) = digitCh 0 from rfl,
    decide_digitCh_eq_false (show d < 10 by omega) (by omega) (show d ≠ 0 by omega),
    Bool.false_and,
    inCls_digitCh_true (show d < 10 by omega) (show 49 ≤ 48 + d by omega)
      (show 48 + d ≤ 57 by omega)]
  simp [digitVal_digitCh (show d < 10 by omega)]

theorem matchHour_rend2 {h : Nat} (hh : h ≤ 23) (rest : List Char) :
    matchHour (rend2 h ++ rest) = some (h, rest) := by
  have e : rend2 h ++ rest = digitCh (h / 10) :: digitCh (h % 10) :: rest := rfl
  rw [e]
  by_cases h9 : h < 10
  · rw [show digitCh (h / 10) = '0' by rw [show h / 10 = 0 by omega]; rfl]
    rw [matchHour]
    simp only [show decide (('0' : Char) = '2') = false from rfl, Bool.false_and,
      show inCls '0' 48 49 = true from rfl, Bool.true_and,
      isDigitCh_digitCh (show h % 10 < 10 by omega), if_true]
    simp [digitVal_digitCh (show h % 10 < 10 by omega), show digitVal '0' = 0 from rfl]
    omega
  · by_cases h20 : h < 20
    · rw [show digitCh (h / 10) = '1' by rw [show h / 10 = 1 by omega]; rfl]
      rw [matchHour]
      simp only [show decide (('1' : Char) = '2') = false from rfl, Bool.false_and,
        show inCls '1' 48 49 = true from rfl, Bool.true_and,
        isDigitCh_digitCh (show h % 10 < 10 by omega), if_true]
      simp [digitVal_digitCh (show h % 10 < 10 by omega), show digitVal '1' = 1 from rfl]
      omega
    · rw [show digitCh (h / 10) = '2' by rw [show h / 10 = 2 by omega]; rfl]
      rw [matchHour]
      simp only [show decide (('2' : Char) = '2') = true from rfl, Bool.true_and,
        inCls_digitCh_true (show h % 10 < 10 by omega) (show 48 ≤ 48 + h % 10 by omega)
          (show 48 + h % 10 ≤ 51 by omega), if_true]
      simp [digitVal_digitCh (show h % 10 < 10 by omega)]
      omega

theorem matchHour_single {h : Nat} (hh : h ≤ 9) (c : Char) (rest : List Char)
    (hc : isDigitCh c = false) :
    matchHour (digitCh h :: c :: rest) = some (h, c :: rest) := by
  rw [matchHour]
  simp only [inCls_sub_digit_false c 48 51 (by omega) (by omega) hc, Bool.and_false, hc,
    isDigitCh_digitCh (show h < 10 by omega), if_true]
  simp [digitVal_digitCh (show h < 10 by omega)]

theorem matchMinute_rend2 {m : Nat} (hm : m ≤ 59) (rest : List Char) :
    matchMinute (rend2 m ++ rest) = some (m, rest) := by
  have e : rend2 m ++ rest = digitCh (m / 10) :: digitCh (m % 10) :: rest := rfl
  rw [e, matchMinute]
  simp only [inCls_digitCh_true (show m / 10 < 10 by omega) (show 48 ≤ 48 + m / 10 by omega)
      (show 48 + m / 10 ≤ 53 by omega),
    isDigitCh_digitCh (show m % 10 < 10 by omega), Bool.and_self, if_true]
  simp [digitVal_digitCh (show m / 10 < 10 by omega),
    digitVal_digitCh (show m % 10 < 10 by omega)]
  omega

theorem matchMinute_single {m : Nat} (hm : m ≤ 9) (c : Char) (rest : List Char)
    (hc : isDigitCh c = false) :
    matchMinute (digitCh m :: c :: rest) = some (m, c :: rest) := by
  rw [matchMinute]
  simp only [hc, Bool.and_false, isDigitCh_digitCh (show m < 10 by omega), if_true]
  simp [digitVal_digitCh (show m < 10 by omega)]

theorem matchSecond_rend2 {s : Nat} (hs : s ≤ 59) (rest : List Char) :
    matchSecond (rend2 s ++ rest) = some (s, rest) := by
  have e : rend2 s ++ rest = digitCh (s / 10) :: digitCh (s % 10) :: rest := rfl
  rw [e, matchSecond]
  simp only [show ('6' : Char) = digitCh 6 from rfl,
    decide_digitCh_eq_false (show s / 10 < 10 by omega) (by omega) (show s / 10 ≠ 6 by omega),
    Bool.false_and,
    inCls_digitCh_true (show s / 10 < 10 by omega) (show 48 ≤ 48 + s / 10 by omega)
      (show 48 + s / 10 ≤ 53 by omega),
    isDigitCh_digitCh (show s % 10 < 10 by omega), Bool.and_self, if_true]
  simp [digitVal_digitCh (show s / 10 < 10 by omega),
    digitVal_digitCh (show s % 10 < 10 by omega)]
  omega

theorem matchSecond_single {s : Nat} (hs : s ≤ 9) :
    matchSecond [digitCh s] = some (s, []) := by
  rw [matchSecond]
  simp [isDigitCh_digitCh (show s < 10 by omega), digitVal_digitCh (show s < 10 by omega)]

theorem matchSep_T (rest : List Char) : matchSep true ('T' :: rest) = some rest := rfl

theorem matchSep_space {v : Nat} (hv : v < 10) (rest : List Char) :
    matchSep false (' ' :: digitCh v :: rest) = some (digitCh v :: rest) := by
  rw [matchSep]
  simp [List.dropWhile_cons, isPyWs_digitCh hv, show isPyWs ' ' = true from rfl]


theorem natToDec_single {m : Nat} (h : m < 10) : natToDec m = [digitCh m] := by
  unfold natToDec decDigits
  rw [decDigitsF_small _ _ h]
  rfl

theorem month_eval (p : Bool) {mo : Nat} (h1 : 1 ≤ mo) (h2 : mo ≤ 12) (rest : List Char) :
    matchMonth (rendOpt p mo ++ '-' :: rest) = some (mo, '-' :: rest) := by
  cases p with
  | true =>
    rw [show rendOpt true mo = rend2 mo from rfl]
    exact matchMonth_rend2 h1 h2 _
  | false =>
    rw [show rendOpt false mo = natToDec mo from rfl]
    by_cases hm : mo < 10
    · rw [natToDec_single hm]
      exact matchMonth_single h1 (by omega) rest
    · rw [natToDec_two (by omega) (by omega)]
      exact matchMonth_rend2 h1 h2 _

theorem day_eval (p : Bool) {d : Nat} (h1 : 1 ≤ d) (h2 : d ≤ 31) (c : Char)
    (hc : isDigitCh c = false) (rest : List Char) :
    matchDay (rendOpt p d ++ c :: rest) = some (d, c :: rest) := by
  cases p with
  | true =>
    rw [show rendOpt true d = rend2 d from rfl]
    exact matchDay_rend2 h1 h2 _
  | false =>
    rw [show rendOpt false d = natToDec d from rfl]
    by_cases hd : d < 10
    · rw [natToDec_single hd]
      exact matchDay_single h1 (by omega) c rest hc
    · rw [natToDec_two (by omega) (by omega)]
      exact matchDay_rend2 h1 h2 _

theorem hour_eval (p : Bool) {h : Nat} (hh : h ≤ 23) (rest : List Char) :
    matchHour (rendOpt p h ++ ':' :: rest) = some (h, ':' :: rest) := by
  cases p with
  | true =>
    rw [show rendOpt true h = rend2 h from rfl]
    exact matchHour_rend2 hh _
  | false =>
    rw [show rendOpt false h = natToDec h from rfl]
    by_cases h9 : h < 10
    · rw [natToDec_single h9]
      exact matchHour_single (by omega) ':' rest rfl
    · rw [natToDec_two (by omega) (by omega)]
      exact matchHour_rend2 hh _

theorem minute_eval (p : Bool) {m : Nat} (hm : m ≤ 59) (rest : List Char) :
    matchMinute (rendOpt p m ++ ':' :: rest) = some (m, ':' :: rest) := by
  cases p with
  | true =>
    rw [show rendOpt true m = rend2 m from rfl]
    exact matchMinute_rend2 hm _
  | false =>
    rw [show rendOpt false m = natToDec m from rfl]
    by_cases h9 : m < 10
    · rw [natToDec_single h9]
      exact matchMinute_single (by omega) ':' rest rfl
    · rw [natToDec_two (by omega) (by omega)]
      exact matchMinute_rend2 hm _

theorem second_eval (p : Bool) {s : Nat} (hs : s ≤ 59) :
    matchSecond (rendOpt p s) = some (s, []) := by
  cases p with
  | true =>
    rw [show rendOpt true s = rend2 s from rfl,
      show rend2 s = rend2 s ++ [] by simp]
    exact matchSecond_rend2 hs []
  | false =>
    rw [show rendOpt false s = natToDec s from rfl]
    by_cases h9 : s < 10
    · rw [natToDec_single h9]
      exact matchSecond_single (by omega)
    · rw [natToDec_two (by omega) (by omega),
        show rend2 s = rend2 s ++ [] by simp]
      exact matchSecond_rend2 hs []

theorem rendOpt_head (p : Bool) (v : Nat) (hv : v < 100) :
    ∃ w rest0, w < 10 ∧ rendOpt p v = digitCh w :: rest0 := by
  cases p with
  | true => exact ⟨v / 10, [digitCh (v % 10)], by omega, rfl⟩
  | false =>
    by_cases h9 : v < 10
    · exact ⟨v, [], by omega, by rw [show rendOpt false v = natToDec v from rfl,
        natToDec_single h9]⟩
    · exact ⟨v / 10, [digitCh (v % 10)], by omega,
        by rw [show rendOpt false v = natToDec v from rfl, natToDec_two (by omega) hv]; rfl⟩

theorem sep_space_eval (p : Bool) (v : Nat) (hv : v < 100) (X : List Char) :
    matchSep false (' ' :: (rendOpt p v ++ X)) = some (rendOpt p v ++ X) := by
  obtain ⟨w, rest0, hw, he⟩ := rendOpt_head p v hv
  rw [he, List.cons_append]
  exact matchSep_space hw _

theorem mkDatetime_valid {y mo d h mi s : Nat}
    (hy1 : 1 ≤ y) (hy2 : y ≤ 9999) (hmo1 : 1 ≤ mo) (hmo2 : mo ≤ 12)
    (hd1 : 1 ≤ d) (hd2 : d ≤ daysInMonth y mo) (hh : h ≤ 23) (hmi : mi ≤ 59)
    (hs : s ≤ 59) : mkDatetime y mo d h mi s = some ⟨y, mo, d, h, mi, s⟩ := by
  unfold mkDatetime
  simp [hy1, hy2, hmo1, hmo2, hd1, hd2, hh, hmi, hs]


theorem daysInMonth_le_31 (y mo : Nat) : daysInMonth y mo ≤ 31 := by
  unfold daysInMonth
  split_ifs <;> omega

theorem strptime_accept_T (p1 p2 p3 p4 p5 : Bool) {y mo d h mi s : Nat}
    (hy1 : 1 ≤ y) (hy2 : y ≤ 9999) (hmo1 : 1 ≤ mo) (hmo2 : mo ≤ 12)
    (hd1 : 1 ≤ d) (hd2 : d ≤ daysInMonth y mo) (hh : h ≤ 23) (hmi : mi ≤ 59)
    (hs : s ≤ 59) :
    strptime true (rendDateTime 'T' p1 p2 p3 p4 p5 y mo d h mi s).data =
      some ⟨y, mo, d, h, mi, s⟩ := by
  have hnorm : (rendDateTime 'T' p1 p2 p3 p4 p5 y mo d h mi s).data =
      rendYear4 y ++ '-' :: (rendOpt p1 mo ++ '-' :: (rendOpt p2 d ++ 'T' ::
        (rendOpt p3 h ++ ':' :: (rendOpt p4 mi ++ ':' :: rendOpt p5 s)))) := by
    show rendYear4 y ++ '-' :: rendOpt p1 mo ++ '-' :: rendOpt p2 d ++ 'T' ::
        rendOpt p3 h ++ ':' :: rendOpt p4 mi ++ ':' :: rendOpt p5 s = _
    simp [List.append_assoc]
  have hd31 : d ≤ 31 := le_trans hd2 (daysInMonth_le_31 y mo)
  rw [hnorm, strptime, strptimeFields]
  simp only [matchYear_rend hy2, matchLit_cons, month_eval p1 hmo1 hmo2,
    day_eval p2 hd1 hd31 'T' rfl, matchSep_T, hour_eval p3 hh, minute_eval p4 hmi,
    second_eval p5 hs, Option.bind_eq_bind, Option.some_bind]
  simp [mkDatetime_valid hy1 hy2 hmo1 hmo2 hd1 hd2 hh hmi hs]


theorem matchSep_T_on_space (cs : List Char) : matchSep true (' ' :: cs) = none := rfl

theorem matchSep_space_on_T (cs : List Char) : matchSep false ('T' :: cs) = none := rfl

theorem strptime_accept_space (p1 p2 p3 p4 p5 : Bool) {y mo d h mi s : Nat}
    (hy1 : 1 ≤ y) (hy2 : y ≤ 9999) (hmo1 : 1 ≤ mo) (hmo2 : mo ≤ 12)
    (hd1 : 1 ≤ d) (hd2 : d ≤ daysInMonth y mo) (hh : h ≤ 23) (hmi : mi ≤ 59)
    (hs : s ≤ 59) :
    strptime false (rendDateTime ' ' p1 p2 p3 p4 p5 y mo d h mi s).data =
      some ⟨y, mo, d, h, mi, s⟩ := by
  have hnorm : (rendDateTime ' ' p1 p2 p3 p4 p5 y mo d h mi s).data =
      rendYear4 y ++ '-' :: (rendOpt p1 mo ++ '-' :: (rendOpt p2 d ++ ' ' ::
        (rendOpt p3 h ++ ':' :: (rendOpt p4 mi ++ ':' :: rendOpt p5 s)))) := by
    show rendYear4 y ++ '-' :: rendOpt p1 mo ++ '-' :: rendOpt p2 d ++ ' ' ::
        rendOpt p3 h ++ ':' :: rendOpt p4 mi ++ ':' :: rendOpt p5 s = _
    simp [List.append_assoc]
  have hd31 : d ≤ 31 := le_trans hd2 (daysInMonth_le_31 y mo)
  rw [hnorm, strptime, strptimeFields]
  simp only [matchYear_rend hy2, matchLit_cons, month_eval p1 hmo1 hmo2,
    day_eval p2 hd1 hd31 ' ' rfl, sep_space_eval p3 h (by omega),
    hour_eval p3 hh, minute_eval p4 hmi,
    second_eval p5 hs, Option.bind_eq_bind, Option.some_bind]
  simp [mkDatetime_valid hy1 hy2 hmo1 hmo2 hd1 hd2 hh hmi hs]

theorem strptime_T_on_space_none (p1 p2 p3 p4 p5 : Bool) {y mo d h mi s : Nat}
    (hy2 : y ≤ 9999) (hmo1 : 1 ≤ mo) (hmo2 : mo ≤ 12)
    (hd1 : 1 ≤ d) (hd31 : d ≤ 31) :
    strptime true (rendDateTime ' ' p1 p2 p3 p4 p5 y mo d h mi s).data = none := by
  have hnorm : (rendDateTime ' ' p1 p2 p3 p4 p5 y mo d h mi s).data =
      rendYear4 y ++ '-' :: (rendOpt p1 mo ++ '-' :: (rendOpt p2 d ++ ' ' ::
        (rendOpt p3 h ++ ':' :: (rendOpt p4 mi ++ ':' :: rendOpt p5 s)))) := by
    show rendYear4 y ++ '-' :: rendOpt p1 mo ++ '-' :: rendOpt p2 d ++ ' ' ::
        rendOpt p3 h ++ ':' :: rendOpt p4 mi ++ ':' :: rendOpt p5 s = _
    simp [List.append_assoc]
  rw [hnorm, strptime, strptimeFields]
  simp only [matchYear_rend hy2, matchLit_cons, month_eval p1 hmo1 hmo2,
    day_eval p2 hd1 hd31 ' ' rfl, matchSep_T_on_space,
    Option.bind_eq_bind, Option.some_bind, Option.none_bind]

theorem strptime_space_on_T_none (p1 p2 p3 p4 p5 : Bool) {y mo d h mi s : Nat}
    (hy2 : y ≤ 9999) (hmo1 : 1 ≤ mo) (hmo2 : mo ≤ 12)
    (hd1 : 1 ≤ d) (hd31 : d ≤ 31) :
    strptime false (rendDateTime 'T' p1 p2 p3 p4 p5 y mo d h mi s).data = none := by
  have hnorm : (rendDateTime 'T' p1 p2 p3 p4 p5 y mo d h mi s).data =
      rendYear4 y ++ '-' :: (rendOpt p1 mo ++ '-' :: (rendOpt p2 d ++ 'T' ::
        (rendOpt p3 h ++ ':' :: (rendOpt p4 mi ++ ':' :: rendOpt p5 s)))) := by
    show rendYear4 y ++ '-' :: rendOpt p1 mo ++ '-' :: rendOpt p2 d ++ 'T' ::
        rendOpt p3 h ++ ':' :: rendOpt p4 mi ++ ':' :: rendOpt p5 s = _
    simp [List.append_assoc]
  rw [hnorm, strptime, strptimeFields]
  simp only [matchYear_rend hy2, matchLit_cons, month_eval p1 hmo1 hmo2,
    day_eval p2 hd1 hd31 'T' rfl, matchSep_space_on_T,
    Option.bind_eq_bind, Option.some_bind, Option.none_bind]

theorem datetime_from_str_accept (sep : Char) (p1 p2 p3 p4 p5 : Bool) {y mo d h mi s : Nat}
    (hsep : sep = 'T' ∨ sep = ' ')
    (hy1 : 1 ≤ y) (hy2 : y ≤ 9999) (hmo1 : 1 ≤ mo) (hmo2 : mo ≤ 12)
    (hd1 : 1 ≤ d) (hd2 : d ≤ daysInMonth y mo) (hh : h ≤ 23) (hmi : mi ≤ 59)
    (hs : s ≤ 59) :
    datetime_from_str (rendDateTime sep p1 p2 p3 p4 p5 y mo d h mi s) =
      .ok ⟨y, mo, d, h, mi, s⟩ := by
  rcases hsep with rfl | rfl
  · unfold datetime_from_str
    rw [strptime_accept_T p1 p2 p3 p4 p5 hy1 hy2 hmo1 hmo2 hd1 hd2 hh hmi hs]
  · unfold datetime_from_str
    rw [strptime_T_on_space_none p1 p2 p3 p4 p5 hy2 hmo1 hmo2 hd1
      (le_trans hd2 (daysInMonth_le_31 y mo)),
      strptime_accept_space p1 p2 p3 p4 p5 hy1 hy2 hmo1 hmo2 hd1 hd2 hh hmi hs]


/-! ### `strptime` rejection lemmas -/

theorem decide_digitCh_eq_any_false {v : Nat} (hv : v < 10) (c : Char)
    (hc : ¬ (48 ≤ c.toNat ∧ c.toNat ≤ 57)) : decide (digitCh v = c) = false := by
  simp only [decide_eq_false_iff_not]
  intro he
  rw [← he] at hc
  rw [digitCh_toNat hv] at hc
  omega

theorem matchLit_none {l c : Char} (h : ¬ (c = l)) (rest : List Char) :
    matchLit l (c :: rest) = none := by
  simp [matchLit, h]

theorem matchLit_digitCh_none {v : Nat} (hv : v < 10) {l : Char}
    (hl : ¬ (48 ≤ l.toNat ∧ l.toNat ≤ 57)) (rest : List Char) :
    matchLit l (digitCh v :: rest) = none :=
  matchLit_none (of_decide_eq_false (decide_digitCh_eq_any_false hv l hl)) rest

theorem matchSep_digit_none (useT : Bool) {v : Nat} (hv : v < 10) (rest : List Char) :
    matchSep useT (digitCh v :: rest) = none := by
  cases useT with
  | true =>
    rw [matchSep]
    simp [decide_digitCh_eq_any_false hv 'T' (by decide),
      decide_digitCh_eq_any_false hv 't' (by decide)]
  | false =>
    rw [matchSep]
    simp [isPyWs_digitCh hv]

theorem matchYear_nondigit_head {c : Char} (hc : isDigitCh c = false) (cs : List Char) :
    matchYear (c :: cs) = none := by
  rcases cs with _ | ⟨c2, _ | ⟨c3, _ | ⟨c4, rest⟩⟩⟩
  · rfl
  · rfl
  · rfl
  · rw [matchYear]
    simp [hc]

theorem matchMonth_zero (p : Bool) (rest : List Char) :
    matchMonth (rendOpt p 0 ++ '-' :: rest) = none := by
  cases p with
  | true =>
    rw [show rendOpt true 0 ++ '-' :: rest = '0' :: '0' :: '-' :: rest from rfl, matchMonth]
    simp [show inCls '0' 49 57 = false from rfl, show inCls '0' 48 50 = true from rfl]
  | false =>
    rw [show rendOpt false 0 = natToDec 0 from rfl, natToDec_single (by omega)]
    rw [show [digitCh 0] ++ '-' :: rest = '0' :: '-' :: rest from rfl, matchMonth]
    simp [show inCls '-' 49 57 = false from rfl, show inCls '-' 48 50 = false from rfl,
      show inCls '0' 49 57 = false from rfl]


theorem matchMonth_big {mo : Nat} (h1 : 13 ≤ mo) (h2 : mo ≤ 99) (rest : List Char) :
    matchMonth (rend2 mo ++ rest) = some (mo / 10, digitCh (mo % 10) :: rest) := by
  have e : rend2 mo ++ rest = digitCh (mo / 10) :: digitCh (mo % 10) :: rest := rfl
  rw [e]
  by_cases h19 : mo < 20
  · rw [show digitCh (mo / 10) = '1' by rw [show mo / 10 = 1 by omega]; rfl]
    rw [matchMonth]
    simp only [show decide (('1' : Char) = '1') = true from rfl, Bool.true_and,
      inCls_digitCh_false (show mo % 10 < 10 by omega) (Or.inr (show 50 < 48 + mo % 10 by omega)),
      if_false, show decide (('1' : Char) = '0') = false from rfl, Bool.false_and,
      show inCls '1' 49 57 = true from rfl, if_true]
    rw [show mo / 10 = 1 by omega]
    rfl
  · rw [matchMonth]
    simp only [show ('1' : Char) = digitCh 1 from rfl, show ('0' : Char) = digitCh 0 from rfl,
      decide_digitCh_eq_false (show mo / 10 < 10 by omega) (by omega) (show mo / 10 ≠ 1 by omega),
      decide_digitCh_eq_false (show mo / 10 < 10 by omega) (by omega) (show mo / 10 ≠ 0 by omega),
      Bool.false_and, if_false,
      inCls_digitCh_true (show mo / 10 < 10 by omega) (show 49 ≤ 48 + mo / 10 by omega)
        (show 48 + mo / 10 ≤ 57 by omega), if_true]
    rw [digitVal_digitCh (show mo / 10 < 10 by omega)]
    simp

theorem matchDay_zero (p : Bool) (c : Char) (hc : inCls c 49 57 = false) (rest : List Char) :
    matchDay (rendOpt p 0 ++ c :: rest) = none := by
  cases p with
  | true =>
    rw [show rendOpt true 0 ++ c :: rest = '0' :: '0' :: c :: rest from rfl, matchDay]
    simp [show inCls '0' 49 50 = false from rfl, show inCls '0' 48 49 = true from rfl,
      show inCls '0' 49 57 = false from rfl]
  | false =>
    rw [show rendOpt false 0 = natToDec 0 from rfl, natToDec_single (by omega)]
    rw [show [digitCh 0] ++ c :: rest = '0' :: c :: rest from rfl, matchDay]
    simp [show inCls '0' 49 50 = false from rfl, show inCls '0' 49 57 = false from rfl, hc]

theorem matchDay_big {d : Nat} (h1 : 32 ≤ d) (h2 : d ≤ 99) (rest : List Char) :
    matchDay (rend2 d ++ rest) = some (d / 10, digitCh (d % 10) :: rest) := by
  have e : rend2 d ++ rest = digitCh (d / 10) :: digitCh (d % 10) :: rest := rfl
  rw [e]
  by_cases h39 : d < 40
  · rw [show digitCh (d / 10) = '3' by rw [show d / 10 = 3 by omega]; rfl]
    rw [matchDay]
    simp only [show decide (('3' : Char) = '3') = true from rfl, Bool.true_and,
      inCls_digitCh_false (show d % 10 < 10 by omega) (Or.inr (show 49 < 48 + d % 10 by omega)),
      if_false, show inCls '3' 49 50 = false from rfl, Bool.false_and,
      show decide (('3' : Char) = '0') = false from rfl,
      show inCls '3' 49 57 = true from rfl, if_true]
    rw [show d / 10 = 3 by omega]
    rfl
  · rw [matchDay]
    simp only [show ('3' : Char) = digitCh 3 from rfl, show ('0' : Char) = digitCh 0 from rfl,
      decide_digitCh_eq_false (show d / 10 < 10 by omega) (by omega) (show d / 10 ≠ 3 by omega),
      decide_digitCh_eq_false (show d / 10 < 10 by omega) (by omega) (show d / 10 ≠ 0 by omega),
      Bool.false_and, if_false,
      inCls_digitCh_false (show d / 10 < 10 by omega) (Or.inr (show 50 < 48 + d / 10 by omega)),
      inCls_digitCh_true (show d / 10 < 10 by omega) (show 49 ≤ 48 + d / 10 by omega)
        (show 48 + d / 10 ≤ 57 by omega), if_true]
    rw [digitVal_digitCh (show d / 10 < 10 by omega)]
    simp

theorem matchHour_big {h : Nat} (h1 : 24 ≤ h) (h2 : h ≤ 99) (rest : List Char) :
    matchHour (rend2 h ++ rest) = some (h / 10, digitCh (h % 10) :: rest) := by
  have e : rend2 h ++ rest = digitCh (h / 10) :: digitCh (h % 10) :: rest := rfl
  rw [e]
  by_cases h29 : h < 30
  · rw [show digitCh (h / 10) = '2' by rw [show h / 10 = 2 by omega]; rfl]
    rw [matchHour]
    simp only [show decide (('2' : Char) = '2') = true from rfl, Bool.true_and,
      inCls_digitCh_false (show h % 10 < 10 by omega) (Or.inr (show 51 < 48 + h % 10 by omega)),
      if_false, show inCls '2' 48 49 = false from rfl, Bool.false_and,
      show isDigitCh '2' = true from rfl, if_true]
    rw [show h / 10 = 2 by omega]
    rfl
  · rw [matchHour]
    simp only [show ('2' : Char) = digitCh 2 from rfl,
      decide_digitCh_eq_false (show h / 10 < 10 by omega) (by omega) (show h / 10 ≠ 2 by omega),
      Bool.false_and, if_false,
      inCls_digitCh_false (show h / 10 < 10 by omega) (Or.inr (show 49 < 48 + h / 10 by omega)),
      isDigitCh_digitCh (show h / 10 < 10 by omega), if_true]
    rw [digitVal_digitCh (show h / 10 < 10 by omega)]
    simp

theorem matchMinute_big {m : Nat} (h1 : 60 ≤ m) (h2 : m ≤ 99) (rest : List Char) :
    matchMinute (rend2 m ++ rest) = some (m / 10, digitCh (m % 10) :: rest) := by
  have e : rend2 m ++ rest = digitCh (m / 10) :: digitCh (m % 10) :: rest := rfl
  rw [e, matchMinute]
  simp only [inCls_digitCh_false (show m / 10 < 10 by omega)
      (Or.inr (show 53 < 48 + m / 10 by omega)), Bool.false_and, if_false,
    isDigitCh_digitCh (show m / 10 < 10 by omega), if_true]
  rw [digitVal_digitCh (show m / 10 < 10 by omega)]
  simp

theorem matchSecond_leap {s : Nat} (h1 : 60 ≤ s) (h2 : s ≤ 61) (rest : List Char) :
    matchSecond (rend2 s ++ rest) = some (s, rest) := by
  have e : rend2 s ++ rest = digitCh (s / 10) :: digitCh (s % 10) :: rest := rfl
  rw [e]
  rw [show digitCh (s / 10) = '6' by rw [show s / 10 = 6 by omega]; rfl]
  rw [matchSecond]
  simp only [show decide (('6' : Char) = '6') = true from rfl, Bool.true_and,
    inCls_digitCh_true (show s % 10 < 10 by omega) (show 48 ≤ 48 + s % 10 by omega)
      (show 48 + s % 10 ≤ 49 by omega), if_true]
  rw [digitVal_digitCh (show s % 10 < 10 by omega)]
  have h60 : 60 + s % 10 = s := by omega
  rw [h60]
  simp

theorem matchSecond_big {s : Nat} (h1 : 62 ≤ s) (h2 : s ≤ 99) (rest : List Char) :
    matchSecond (rend2 s ++ rest) = some (s / 10, digitCh (s % 10) :: rest) := by
  have e : rend2 s ++ rest = digitCh (s / 10) :: digitCh (s % 10) :: rest := rfl
  rw [e]
  by_cases h69 : s < 70
  · rw [show digitCh (s / 10) = '6' by rw [show s / 10 = 6 by omega]; rfl]
    rw [matchSecond]
    simp only [show decide (('6' : Char) = '6') = true from rfl, Bool.true_and,
      inCls_digitCh_false (show s % 10 < 10 by omega) (Or.inr (show 49 < 48 + s % 10 by omega)),
      if_false, show inCls '6' 48 53 = false from rfl, Bool.false_and,
      show isDigitCh '6' = true from rfl, if_true]
    rw [show s / 10 = 6 by omega]
    rfl
  · rw [matchSecond]
    simp only [show ('6' : Char) = digitCh 6 from rfl,
      decide_digitCh_eq_false (show s / 10 < 10 by omega) (by omega) (show s / 10 ≠ 6 by omega),
      Bool.false_and, if_false,
      inCls_digitCh_false (show s / 10 < 10 by omega) (Or.inr (show 53 < 48 + s / 10 by omega)),
      isDigitCh_digitCh (show s / 10 < 10 by omega), if_true]
    rw [digitVal_digitCh (show s / 10 < 10 by omega)]
    simp


theorem decDigitsF_two_general {fuel n : Nat} (h1 : 10 ≤ n) (h2 : n < 100) (hf : n ≤ fuel) :
    decDigitsF fuel n = [n / 10, n % 10] := by
  obtain ⟨f, rfl⟩ : ∃ f, fuel = f + 1 := ⟨fuel - 1, by omega⟩
  rw [decDigitsF, if_neg (by omega), decDigitsF_small f (n / 10) (by omega)]
  rfl

theorem decDigitsF_three_general {fuel n : Nat} (h1 : 100 ≤ n) (h2 : n < 1000)
    (hf : n ≤ fuel) : decDigitsF fuel n = [n / 100, n / 10 % 10, n % 10] := by
  obtain ⟨f, rfl⟩ : ∃ f, fuel = f + 1 := ⟨fuel - 1, by omega⟩
  rw [decDigitsF, if_neg (by omega)]
  rw [decDigitsF_two_general (show 10 ≤ n / 10 by omega) (show n / 10 < 100 by omega)
    (show n / 10 ≤ f by omega)]
  rw [show n / 10 / 10 = n / 100 by omega]
  rfl

theorem natToDec_three {n : Nat} (h1 : 100 ≤ n) (h2 : n < 1000) :
    natToDec n = [digitCh (n / 100), digitCh (n / 10 % 10), digitCh (n % 10)] := by
  unfold natToDec decDigits
  rw [decDigitsF_three_general h1 h2 le_rfl]
  rfl

theorem matchYear_digits {a b c d : Nat} (ha : a < 10) (hb : b < 10) (hc : c < 10)
    (hd : d < 10) (rest : List Char) :
    matchYear (digitCh a :: digitCh b :: digitCh c :: digitCh d :: rest) =
      some (((a * 10 + b) * 10 + c) * 10 + d, rest) := by
  rw [matchYear]
  simp only [isDigitCh_digitCh ha, isDigitCh_digitCh hb, isDigitCh_digitCh hc,
    isDigitCh_digitCh hd, Bool.and_self, if_true]
  rw [digitVal_digitCh ha, digitVal_digitCh hb, digitVal_digitCh hc, digitVal_digitCh hd]

theorem mkDatetime_invalid {y mo d h mi s : Nat}
    (hbad : daysInMonth y mo < d ∨ 59 < s) : mkDatetime y mo d h mi s = none := by
  unfold mkDatetime
  split_ifs with hco
  · exfalso
    simp only [Bool.and_eq_true, decide_eq_true_eq] at hco
    omega
  · rfl

/-! ### A successful `strptime` match ends in a digit -/

theorem matchYear_suffix {cs : List Char} {v : Nat} {rest : List Char}
    (h : matchYear cs = some (v, rest)) : ∃ pre, cs = pre ++ rest := by
  rcases cs with _ | ⟨c1, _ | ⟨c2, _ | ⟨c3, _ | ⟨c4, rest'⟩⟩⟩⟩
  · exact absurd h (by simp [matchYear])
  · exact absurd h (by simp [matchYear])
  · exact absurd h (by simp [matchYear])
  · exact absurd h (by simp [matchYear])
  · rw [matchYear] at h
    split_ifs at h
    simp only [Option.some.injEq, Prod.mk.injEq] at h
    exact ⟨[c1, c2, c3, c4], by rw [← h.2]; rfl⟩

theorem matchMonth_suffix {cs : List Char} {v : Nat} {rest : List Char}
    (h : matchMonth cs = some (v, rest)) : ∃ pre, cs = pre ++ rest := by
  rcases cs with _ | ⟨c1, _ | ⟨c2, rest'⟩⟩
  · exact absurd h (by simp [matchMonth])
  · rw [matchMonth] at h
    split_ifs at h
    simp only [Option.some.injEq, Prod.mk.injEq] at h
    exact ⟨[c1], by rw [← h.2]; rfl⟩
  · rw [matchMonth] at h
    split_ifs at h
    · simp only [Option.some.injEq, Prod.mk.injEq] at h
      exact ⟨[c1, c2], by rw [← h.2]; rfl⟩
    · simp only [Option.some.injEq, Prod.mk.injEq] at h
      exact ⟨[c1, c2], by rw [← h.2]; rfl⟩
    · simp only [Option.some.injEq, Prod.mk.injEq] at h
      exact ⟨[c1], by rw [← h.2]; rfl⟩

theorem matchDay_suffix {cs : List Char} {v : Nat} {rest : List Char}
    (h : matchDay cs = some (v, rest)) : ∃ pre, cs = pre ++ rest := by
  rcases cs with _ | ⟨c1, _ | ⟨c2, rest'⟩⟩
  · exact absurd h (by simp [matchDay])
  · rw [matchDay] at h
    split_ifs at h
    simp only [Option.some.injEq, Prod.mk.injEq] at h
    exact ⟨[c1], by rw [← h.2]; rfl⟩
  · rw [matchDay] at h
    split_ifs at h
    · simp only [Option.some.injEq, Prod.mk.injEq] at h
      exact ⟨[c1, c2], by rw [← h.2]; rfl⟩
    · simp only [Option.some.injEq, Prod.mk.injEq] at h
      exact ⟨[c1, c2], by rw [← h.2]; rfl⟩
    · simp only [Option.some.injEq, Prod.mk.injEq] at h
      exact ⟨[c1, c2], by rw [← h.2]; rfl⟩
    · simp only [Option.some.injEq, Prod.mk.injEq] at h
      exact ⟨[c1], by rw [← h.2]; rfl⟩
    · simp only [Option.some.injEq, Prod.mk.injEq] at h
      exact ⟨[c1, c2], by rw [← h.2]; rfl⟩

theorem matchHour_suffix {cs : List Char} {v : Nat} {rest : List Char}
    (h : matchHour cs = some (v, rest)) : ∃ pre, cs = pre ++ rest := by
  rcases cs with _ | ⟨c1, _ | ⟨c2, rest'⟩⟩
  · exact absurd h (by simp [matchHour])
  · rw [matchHour] at h
    split_ifs at h
    simp only [Option.some.injEq, Prod.mk.injEq] at h
    exact ⟨[c1], by rw [← h.2]; rfl⟩
  · rw [matchHour] at h
    split_ifs at h
    · simp only [Option.some.injEq, Prod.mk.injEq] at h
      exact ⟨[c1, c2], by rw [← h.2]; rfl⟩
    · simp only [Option.some.injEq, Prod.mk.injEq] at h
      exact ⟨[c1, c2], by rw [← h.2]; rfl⟩
    · simp only [Option.some.injEq, Prod.mk.injEq] at h
      exact ⟨[c1], by rw [← h.2]; rfl⟩

theorem matchMinute_suffix {cs : List Char} {v : Nat} {rest : List Char}
    (h : matchMinute cs = some (v, rest)) : ∃ pre, cs = pre ++ rest := by
  rcases cs with _ | ⟨c1, _ | ⟨c2, rest'⟩⟩
  · exact absurd h (by simp [matchMinute])
  · rw [matchMinute] at h
    split_ifs at h
    simp only [Option.some.injEq, Prod.mk.injEq] at h
    exact ⟨[c1], by rw [← h.2]; rfl⟩
  · rw [matchMinute] at h
    split_ifs at h
    · simp only [Option.some.injEq, Prod.mk.injEq] at h
      exact ⟨[c1, c2], by rw [← h.2]; rfl⟩
    · simp only [Option.some.injEq, Prod.mk.injEq] at h
      exact ⟨[c1], by rw [← h.2]; rfl⟩

theorem matchLit_suffix {l : Char} {cs rest : List Char}
    (h : matchLit l cs = some rest) : ∃ pre, cs = pre ++ rest := by
  rcases cs with _ | ⟨c1, rest'⟩
  · exact absurd h (by simp [matchLit])
  · rw [matchLit] at h
    split_ifs at h
    simp only [Option.some.injEq] at h
    exact ⟨[c1], by rw [← h]; rfl⟩

theorem dropWhile_suffix (p : Char → Bool) (cs : List Char) :
    ∃ pre, cs = pre ++ cs.dropWhile p := by
  induction cs with
  | nil => exact ⟨[], rfl⟩
  | cons c cs ih =>
    by_cases hc : p c = true
    · obtain ⟨pre, hpre⟩ := ih
      refine ⟨c :: pre, ?_⟩
      rw [List.dropWhile_cons, if_pos hc, List.cons_append, ← hpre]
    · rw [List.dropWhile_cons, if_neg hc]
      exact ⟨[], rfl⟩

theorem matchSep_suffix {u : Bool} {cs rest : List Char}
    (h : matchSep u cs = some rest) : ∃ pre, cs = pre ++ rest := by
  rcases cs with _ | ⟨c1, rest'⟩
  · exact absurd h (by simp [matchSep])
  · rw [matchSep] at h
    cases u with
    | true =>
      rw [if_pos rfl] at h
      split_ifs at h
      simp only [Option.some.injEq] at h
      exact ⟨[c1], by rw [← h]; rfl⟩
    | false =>
      rw [if_neg (by simp)] at h
      split_ifs at h
      simp only [Option.some.injEq] at h
      obtain ⟨pre, hpre⟩ := dropWhile_suffix isPyWs rest'
      rw [← h]
      exact ⟨c1 :: pre, by rw [List.cons_append, ← hpre]⟩

theorem matchSecond_last_digit {cs : List Char} {v : Nat} {rest : List Char}
    (h : matchSecond cs = some (v, rest)) :
    ∃ pre c, isDigitCh c = true ∧ cs = pre ++ c :: rest := by
  rcases cs with _ | ⟨c1, _ | ⟨c2, rest'⟩⟩
  · exact absurd h (by simp [matchSecond])
  · rw [matchSecond] at h
    split_ifs at h with h1
    simp only [Option.some.injEq, Prod.mk.injEq] at h
    exact ⟨[], c1, h1, by rw [← h.2]; rfl⟩
  · rw [matchSecond] at h
    split_ifs at h with h1 h2 h3
    · simp only [Option.some.injEq, Prod.mk.injEq] at h
      refine ⟨[c1], c2, ?_, by rw [← h.2]; rfl⟩
      have := Bool.and_eq_true_iff.mp h1
      unfold inCls at this
      unfold isDigitCh
      simp at this ⊢
      omega
    · simp only [Option.some.injEq, Prod.mk.injEq] at h
      exact ⟨[c1], c2, (Bool.and_eq_true_iff.mp h2).2, by rw [← h.2]; rfl⟩
    · simp only [Option.some.injEq, Prod.mk.injEq] at h
      exact ⟨[], c1, h3, by rw [← h.2]; rfl⟩


/-! ### `strptime`-level failure propagation -/

theorem strptime_none_of_year {u : Bool} {cs : List Char} (h : matchYear cs = none) :
    strptime u cs = none := by
  rw [strptime, strptimeFields, h]
  simp

theorem strptime_five_digits (u : Bool) {a b c d e : Nat} (ha : a < 10) (hb : b < 10)
    (hc : c < 10) (hd : d < 10) (he : e < 10) (rest : List Char) :
    strptime u (digitCh a :: digitCh b :: digitCh c :: digitCh d :: digitCh e :: rest) =
      none := by
  have hl5 : matchLit '-' (digitCh e :: rest) = none :=
    @matchLit_digitCh_none e he '-' (by decide) rest
  rw [strptime, strptimeFields]
  simp only [matchYear_digits ha hb hc hd, hl5,
    Option.bind_eq_bind, Option.some_bind, Option.none_bind]

theorem strptime_month_none (u : Bool) {y : Nat} (hy2 : y ≤ 9999) {rest : List Char}
    (h : matchMonth rest = none) :
    strptime u (rendYear4 y ++ '-' :: rest) = none := by
  rw [strptime, strptimeFields]
  simp only [matchYear_rend hy2, matchLit_cons, h,
    Option.bind_eq_bind, Option.some_bind, Option.none_bind]

theorem strptime_month_partial (u : Bool) {y : Nat} (hy2 : y ≤ 9999)
    {rest rest2 : List Char} {v : Nat}
    (hm : matchMonth rest = some (v, rest2)) (hl : matchLit '-' rest2 = none) :
    strptime u (rendYear4 y ++ '-' :: rest) = none := by
  rw [strptime, strptimeFields]
  simp only [matchYear_rend hy2, matchLit_cons, hm, hl,
    Option.bind_eq_bind, Option.some_bind, Option.none_bind]

theorem strptime_day_none (u : Bool) {y mo : Nat} (hy2 : y ≤ 9999) (hmo1 : 1 ≤ mo)
    (hmo2 : mo ≤ 12) (p1 : Bool) {rest : List Char} (h : matchDay rest = none) :
    strptime u (rendYear4 y ++ '-' :: (rendOpt p1 mo ++ '-' :: rest)) = none := by
  rw [strptime, strptimeFields]
  simp only [matchYear_rend hy2, matchLit_cons, month_eval p1 hmo1 hmo2, h,
    Option.bind_eq_bind, Option.some_bind, Option.none_bind]

theorem strptime_day_partial (u : Bool) {y mo : Nat} (hy2 : y ≤ 9999) (hmo1 : 1 ≤ mo)
    (hmo2 : mo ≤ 12) (p1 : Bool) {rest rest2 : List Char} {v : Nat}
    (hd : matchDay rest = some (v, rest2)) (hsep : matchSep u rest2 = none) :
    strptime u (rendYear4 y ++ '-' :: (rendOpt p1 mo ++ '-' :: rest)) = none := by
  rw [strptime, strptimeFields]
  simp only [matchYear_rend hy2, matchLit_cons, month_eval p1 hmo1 hmo2, hd, hsep,
    Option.bind_eq_bind, Option.some_bind, Option.none_bind]

theorem strptime_sep_mismatch (u : Bool) {y mo d : Nat} (hy2 : y ≤ 9999) (hmo1 : 1 ≤ mo)
    (hmo2 : mo ≤ 12) (hd1 : 1 ≤ d) (hd31 : d ≤ 31) (p1 p2 : Bool) (sep : Char)
    (hsepd : isDigitCh sep = false) {tail : List Char}
    (hsep : matchSep u (sep :: tail) = none) :
    strptime u (rendYear4 y ++ '-' :: (rendOpt p1 mo ++ '-' :: (rendOpt p2 d ++ sep :: tail))) =
      none := by
  rw [strptime, strptimeFields]
  simp only [matchYear_rend hy2, matchLit_cons, month_eval p1 hmo1 hmo2,
    day_eval p2 hd1 hd31 sep hsepd, hsep,
    Option.bind_eq_bind, Option.some_bind, Option.none_bind]

theorem strptime_hour_partial (u : Bool) {y mo d : Nat} (hy2 : y ≤ 9999) (hmo1 : 1 ≤ mo)
    (hmo2 : mo ≤ 12) (hd1 : 1 ≤ d) (hd31 : d ≤ 31) (p1 p2 : Bool) (sep : Char)
    (hsepd : isDigitCh sep = false) {tail tail2 : List Char} {v : Nat}
    (hsep : matchSep u (sep :: tail) = some tail)
    (hh : matchHour tail = some (v, tail2)) (hl : matchLit ':' tail2 = none) :
    strptime u (rendYear4 y ++ '-' :: (rendOpt p1 mo ++ '-' :: (rendOpt p2 d ++ sep :: tail))) =
      none := by
  rw [strptime, strptimeFields]
  simp only [matchYear_rend hy2, matchLit_cons, month_eval p1 hmo1 hmo2,
    day_eval p2 hd1 hd31 sep hsepd, hsep, hh, hl,
    Option.bind_eq_bind, Option.some_bind, Option.none_bind]

theorem strptime_minute_partial (u : Bool) {y mo d h : Nat} (hy2 : y ≤ 9999) (hmo1 : 1 ≤ mo)
    (hmo2 : mo ≤ 12) (hd1 : 1 ≤ d) (hd31 : d ≤ 31) (hh : h ≤ 23) (p1 p2 p3 : Bool)
    (sep : Char) (hsepd : isDigitCh sep = false) {tail tail2 : List Char} {v : Nat}
    (hsep : matchSep u (sep :: (rendOpt p3 h ++ ':' :: tail)) =
      some (rendOpt p3 h ++ ':' :: tail))
    (hm : matchMinute tail = some (v, tail2)) (hl : matchLit ':' tail2 = none) :
    strptime u (rendYear4 y ++ '-' :: (rendOpt p1 mo ++ '-' ::
      (rendOpt p2 d ++ sep :: (rendOpt p3 h ++ ':' :: tail)))) = none := by
  rw [strptime, strptimeFields]
  simp only [matchYear_rend hy2, matchLit_cons, month_eval p1 hmo1 hmo2,
    day_eval p2 hd1 hd31 sep hsepd, hsep, hour_eval p3 hh, hm, hl,
    Option.bind_eq_bind, Option.some_bind, Option.none_bind]

theorem strptime_second_leftover (u : Bool) {y mo d h mi s : Nat} (hy2 : y ≤ 9999)
    (hmo1 : 1 ≤ mo) (hmo2 : mo ≤ 12) (hd1 : 1 ≤ d) (hd31 : d ≤ 31) (hh : h ≤ 23)
    (hmi : mi ≤ 59) (h62 : 62 ≤ s) (h99 : s ≤ 99) (p1 p2 p3 p4 : Bool) (sep : Char)
    (hsepd : isDigitCh sep = false)
    (hsep : matchSep u (sep :: (rendOpt p3 h ++ ':' :: (rendOpt p4 mi ++ ':' :: rend2 s))) =
      some (rendOpt p3 h ++ ':' :: (rendOpt p4 mi ++ ':' :: rend2 s))) :
    strptime u (rendYear4 y ++ '-' :: (rendOpt p1 mo ++ '-' ::
      (rendOpt p2 d ++ sep :: (rendOpt p3 h ++ ':' ::
        (rendOpt p4 mi ++ ':' :: rend2 s))))) = none := by
  rw [strptime, strptimeFields]
  have hs2 : matchSecond (rend2 s) = some (s / 10, [digitCh (s % 10)]) := by
    have := matchSecond_big h62 h99 []
    simpa using this
  simp only [matchYear_rend hy2, matchLit_cons, month_eval p1 hmo1 hmo2,
    day_eval p2 hd1 hd31 sep hsepd, hsep, hour_eval p3 hh, minute_eval p4 hmi, hs2,
    Option.bind_eq_bind, Option.some_bind, Option.none_bind]
  simp

theorem strptime_constructor_fail (u : Bool) {y mo d h mi s : Nat} (hy2 : y ≤ 9999)
    (hmo1 : 1 ≤ mo) (hmo2 : mo ≤ 12) (hd1 : 1 ≤ d) (hd31 : d ≤ 31) (hh : h ≤ 23)
    (hmi : mi ≤ 59) (p1 p2 p3 p4 : Bool) (sep : Char) (hsepd : isDigitCh sep = false)
    {secRend : List Char}
    (hsec : matchSecond secRend = some (s, []))
    (hbad : daysInMonth y mo < d ∨ 59 < s)
    (hsep : matchSep u (sep :: (rendOpt p3 h ++ ':' :: (rendOpt p4 mi ++ ':' :: secRend))) =
      some (rendOpt p3 h ++ ':' :: (rendOpt p4 mi ++ ':' :: secRend))) :
    strptime u (rendYear4 y ++ '-' :: (rendOpt p1 mo ++ '-' ::
      (rendOpt p2 d ++ sep :: (rendOpt p3 h ++ ':' ::
        (rendOpt p4 mi ++ ':' :: secRend))))) = none := by
  rw [strptime, strptimeFields]
  simp only [matchYear_rend hy2, matchLit_cons, month_eval p1 hmo1 hmo2,
    day_eval p2 hd1 hd31 sep hsepd, hsep, hour_eval p3 hh, minute_eval p4 hmi, hsec,
    Option.bind_eq_bind, Option.some_bind, Option.none_bind]
  simp [mkDatetime_invalid hbad]


/-- A successful `strptimeFields` run consumes a block of input whose
last character is a digit (the second field ends the pattern). -/
theorem strptimeFields_last_digit {u : Bool} {cs : List Char}
    {f : Nat × Nat × Nat × Nat × Nat × Nat} {rest : List Char}
    (h : strptimeFields u cs = some (f, rest)) :
    ∃ pre c, isDigitCh c = true ∧ cs = pre ++ c :: rest := by
  rw [strptimeFields] at h
  simp only [Option.bind_eq_bind] at h
  cases h1 : matchYear cs with
  | none => rw [h1] at h; simp at h
  | some p1 =>
  obtain ⟨y, cs1⟩ := p1
  rw [h1] at h
  simp only [Option.some_bind] at h
  cases h2 : matchLit '-' cs1 with
  | none => rw [h2] at h; simp at h
  | some cs2 =>
  rw [h2] at h
  simp only [Option.some_bind] at h
  cases h3 : matchMonth cs2 with
  | none => rw [h3] at h; simp at h
  | some p2 =>
  obtain ⟨mo, cs3⟩ := p2
  rw [h3] at h
  simp only [Option.some_bind] at h
  cases h4 : matchLit '-' cs3 with
  | none => rw [h4] at h; simp at h
  | some cs4 =>
  rw [h4] at h
  simp only [Option.some_bind] at h
  cases h5 : matchDay cs4 with
  | none => rw [h5] at h; simp at h
  | some p3 =>
  obtain ⟨d, cs5⟩ := p3
  rw [h5] at h
  simp only [Option.some_bind] at h
  cases h6 : matchSep u cs5 with
  | none => rw [h6] at h; simp at h
  | some cs6 =>
  rw [h6] at h
  simp only [Option.some_bind] at h
  cases h7 : matchHour cs6 with
  | none => rw [h7] at h; simp at h
  | some p4 =>
  obtain ⟨hh, cs7⟩ := p4
  rw [h7] at h
  simp only [Option.some_bind] at h
  cases h8 : matchLit ':' cs7 with
  | none => rw [h8] at h; simp at h
  | some cs8 =>
  rw [h8] at h
  simp only [Option.some_bind] at h
  cases h9 : matchMinute cs8 with
  | none => rw [h9] at h; simp at h
  | some p5 =>
  obtain ⟨mi, cs9⟩ := p5
  rw [h9] at h
  simp only [Option.some_bind] at h
  cases h10 : matchLit ':' cs9 with
  | none => rw [h10] at h; simp at h
  | some cs10 =>
  rw [h10] at h
  simp only [Option.some_bind] at h
  cases h11 : matchSecond cs10 with
  | none => rw [h11] at h; simp at h
  | some p6 =>
  obtain ⟨s, cs11⟩ := p6
  rw [h11] at h
  simp only [Option.some_bind, Option.pure_def, Option.some.injEq, Prod.mk.injEq] at h
  obtain ⟨-, hrest⟩ := h
  subst hrest
  obtain ⟨pA, eA⟩ := matchYear_suffix h1
  obtain ⟨pB, eB⟩ := matchLit_suffix h2
  obtain ⟨pC, eC⟩ := matchMonth_suffix h3
  obtain ⟨pD, eD⟩ := matchLit_suffix h4
  obtain ⟨pE, eE⟩ := matchDay_suffix h5
  obtain ⟨pF, eF⟩ := matchSep_suffix h6
  obtain ⟨pG, eG⟩ := matchHour_suffix h7
  obtain ⟨pH, eH⟩ := matchLit_suffix h8
  obtain ⟨pI, eI⟩ := matchMinute_suffix h9
  obtain ⟨pJ, eJ⟩ := matchLit_suffix h10
  obtain ⟨pS, c, hc, eS⟩ := matchSecond_last_digit h11
  refine ⟨pA ++ pB ++ pC ++ pD ++ pE ++ pF ++ pG ++ pH ++ pI ++ pJ ++ pS, c, hc, ?_⟩
  rw [eA, eB, eC, eD, eE, eF, eG, eH, eI, eJ, eS]
  simp [List.append_assoc]

/-- A successful `strptime` run consumes the whole input, so the input
ends in a digit. -/
theorem strptime_some_last_digit {u : Bool} {cs : List Char} {dt : DateTime}
    (h : strptime u cs = some dt) :
    ∃ pre c, isDigitCh c = true ∧ cs = pre ++ [c] := by
  rw [strptime] at h
  simp only [Option.bind_eq_bind] at h
  cases hf : strptimeFields u cs with
  | none => rw [hf] at h; simp at h
  | some pr =>
  obtain ⟨⟨y, mo, d, hh, mi, s⟩, rest⟩ := pr
  rw [hf] at h
  simp only [Option.some_bind] at h
  by_cases hrest : rest = []
  · subst hrest
    obtain ⟨pre, c, hc, hcs⟩ := strptimeFields_last_digit hf
    exact ⟨pre, c, hc, hcs⟩
  · rw [if_neg hrest] at h
    simp at h


/-! ### `datetime_from_str`-level acceptance and rejection -/

theorem rendDateTime_data (sep : Char) (p1 p2 p3 p4 p5 : Bool) (y mo d h mi s : Nat) :
    (rendDateTime sep p1 p2 p3 p4 p5 y mo d h mi s).data =
      rendYear4 y ++ '-' :: (rendOpt p1 mo ++ '-' :: (rendOpt p2 d ++ sep ::
        (rendOpt p3 h ++ ':' :: (rendOpt p4 mi ++ ':' :: rendOpt p5 s)))) := by
  show rendYear4 y ++ '-' :: rendOpt p1 mo ++ '-' :: rendOpt p2 d ++ sep ::
      rendOpt p3 h ++ ':' :: rendOpt p4 mi ++ ':' :: rendOpt p5 s = _
  simp [List.append_assoc]

theorem rendOpt_eq_rend2 (p : Bool) {v : Nat} (h1 : 10 ≤ v) (h2 : v ≤ 99) :
    rendOpt p v = rend2 v := by
  cases p with
  | true => rfl
  | false => exact natToDec_two h1 (by omega)

theorem datetime_error_of_strptime_none {str : String}
    (h1 : strptime true str.data = none) (h2 : strptime false str.data = none) :
    datetime_from_str str = .error (.parseDatetime str) := by
  rw [datetime_from_str, h1, h2]

theorem matchYear_nondigit2 (c1 : Char) {c2 : Char} (h : isDigitCh c2 = false)
    (cs : List Char) : matchYear (c1 :: c2 :: cs) = none := by
  rcases cs with _ | ⟨c3, _ | ⟨c4, rest⟩⟩
  · rfl
  · rfl
  · rw [matchYear]
    simp [h]

theorem matchYear_nondigit3 (c1 c2 : Char) {c3 : Char} (h : isDigitCh c3 = false)
    (cs : List Char) : matchYear (c1 :: c2 :: c3 :: cs) = none := by
  rcases cs with _ | ⟨c4, rest⟩
  · rfl
  · rw [matchYear]
    simp [h]

theorem matchYear_nondigit4 (c1 c2 c3 : Char) {c4 : Char} (h : isDigitCh c4 = false)
    (cs : List Char) : matchYear (c1 :: c2 :: c3 :: c4 :: cs) = none := by
  rw [matchYear]
  simp [h]

theorem datetime_leading_ws {c : Char} (hc : isPyWs c = true) (cs : List Char) :
    datetime_from_str ⟨c :: cs⟩ = .error (.parseDatetime ⟨c :: cs⟩) := by
  apply datetime_error_of_strptime_none <;>
    exact strptime_none_of_year (matchYear_nondigit_head (isDigitCh_not_ws hc) cs)

theorem datetime_trailing_ws (cs : List Char) {c : Char} (hc : isPyWs c = true) :
    datetime_from_str ⟨cs ++ [c]⟩ = .error (.parseDatetime ⟨cs ++ [c]⟩) := by
  have key : ∀ u, strptime u (cs ++ [c]) = none := by
    intro u
    cases hs : strptime u (cs ++ [c]) with
    | none => rfl
    | some dt =>
      exfalso
      obtain ⟨pre, c', hc', hcs⟩ := strptime_some_last_digit hs
      have e1 : (cs ++ [c]).getLast? = some c := by simp
      have e2 : (pre ++ [c']).getLast? = some c' := by simp
      rw [hcs, e2] at e1
      have hcc : c = c' := (Option.some.inj e1).symm
      rw [← hcc, isDigitCh_not_ws hc] at hc'
      exact Bool.false_ne_true hc'
  exact datetime_error_of_strptime_none (key true) (key false)

theorem datetime_year_short {y : Nat} (h2 : y < 1000) (rest : List Char) :
    datetime_from_str ⟨natToDec y ++ '-' :: rest⟩ =
      .error (.parseDatetime ⟨natToDec y ++ '-' :: rest⟩) := by
  have key : matchYear (natToDec y ++ '-' :: rest) = none := by
    by_cases hA : y < 10
    · rw [natToDec_single hA]
      exact @matchYear_nondigit2 _ '-' rfl rest
    · by_cases hB : y < 100
      · rw [natToDec_two (by omega) hB]
        exact @matchYear_nondigit3 _ _ '-' rfl rest
      · rw [natToDec_three (by omega) h2]
        exact @matchYear_nondigit4 _ _ _ '-' rfl rest
  exact datetime_error_of_strptime_none (strptime_none_of_year key)
    (strptime_none_of_year key)

theorem datetime_year_long {a b c d e : Nat} (ha : a < 10) (hb : b < 10) (hc : c < 10)
    (hd : d < 10) (he : e < 10) (rest : List Char) :
    datetime_from_str ⟨digitCh a :: digitCh b :: digitCh c :: digitCh d :: digitCh e :: rest⟩ =
      .error (.parseDatetime
        ⟨digitCh a :: digitCh b :: digitCh c :: digitCh d :: digitCh e :: rest⟩) := by
  exact datetime_error_of_strptime_none
    (strptime_five_digits true ha hb hc hd he rest)
    (strptime_five_digits false ha hb hc hd he rest)

theorem datetime_month_zero (sep : Char) (p1 p2 p3 p4 p5 : Bool) {y : Nat}
    (hy2 : y ≤ 9999) (d h mi s : Nat) :
    datetime_from_str (rendDateTime sep p1 p2 p3 p4 p5 y 0 d h mi s) =
      .error (.parseDatetime (rendDateTime sep p1 p2 p3 p4 p5 y 0 d h mi s)) := by
  apply datetime_error_of_strptime_none <;>
  · rw [rendDateTime_data]
    exact strptime_month_none _ hy2 (matchMonth_zero p1 _)

theorem datetime_month_big (sep : Char) (p1 p2 p3 p4 p5 : Bool) {y mo : Nat}
    (hy2 : y ≤ 9999) (h13 : 13 ≤ mo) (h99 : mo ≤ 99) (d h mi s : Nat) :
    datetime_from_str (rendDateTime sep p1 p2 p3 p4 p5 y mo d h mi s) =
      .error (.parseDatetime (rendDateTime sep p1 p2 p3 p4 p5 y mo d h mi s)) := by
  have e1 : rendOpt p1 mo = rend2 mo := rendOpt_eq_rend2 p1 (by omega) h99
  apply datetime_error_of_strptime_none <;>
  · rw [rendDateTime_data, e1]
    exact strptime_month_partial _ hy2 (matchMonth_big h13 h99 _)
      (@matchLit_digitCh_none (mo % 10) (by omega) '-' (by decide) _)

theorem datetime_day_zero (sep : Char) (hsep : sep = 'T' ∨ sep = ' ')
    (p1 p2 p3 p4 p5 : Bool) {y mo : Nat} (hy2 : y ≤ 9999) (hmo1 : 1 ≤ mo)
    (hmo2 : mo ≤ 12) (h mi s : Nat) :
    datetime_from_str (rendDateTime sep p1 p2 p3 p4 p5 y mo 0 h mi s) =
      .error (.parseDatetime (rendDateTime sep p1 p2 p3 p4 p5 y mo 0 h mi s)) := by
  have h49 : inCls sep 49 57 = false := by rcases hsep with rfl | rfl <;> rfl
  apply datetime_error_of_strptime_none <;>
  · rw [rendDateTime_data]
    exact strptime_day_none _ hy2 hmo1 hmo2 p1 (matchDay_zero p2 sep h49 _)

theorem datetime_day_big (sep : Char) (p1 p2 p3 p4 p5 : Bool) {y mo d : Nat}
    (hy2 : y ≤ 9999) (hmo1 : 1 ≤ mo) (hmo2 : mo ≤ 12) (h32 : 32 ≤ d) (h99 : d ≤ 99)
    (h mi s : Nat) :
    datetime_from_str (rendDateTime sep p1 p2 p3 p4 p5 y mo d h mi s) =
      .error (.parseDatetime (rendDateTime sep p1 p2 p3 p4 p5 y mo d h mi s)) := by
  have e2 : rendOpt p2 d = rend2 d := rendOpt_eq_rend2 p2 (by omega) h99
  apply datetime_error_of_strptime_none <;>
  · rw [rendDateTime_data, e2]
    exact strptime_day_partial _ hy2 hmo1 hmo2 p1 (matchDay_big h32 h99 _)
      (matchSep_digit_none _ (by omega) _)


theorem datetime_day_invalid (sep : Char) (hsep : sep = 'T' ∨ sep = ' ')
    (p1 p2 p3 p4 p5 : Bool) {y mo d h mi s : Nat} (hy2 : y ≤ 9999) (hmo1 : 1 ≤ mo)
    (hmo2 : mo ≤ 12) (hd1 : 1 ≤ d) (hd31 : d ≤ 31) (hbadd : daysInMonth y mo < d)
    (hh : h ≤ 23) (hmi : mi ≤ 59) (hs : s ≤ 59) :
    datetime_from_str (rendDateTime sep p1 p2 p3 p4 p5 y mo d h mi s) =
      .error (.parseDatetime (rendDateTime sep p1 p2 p3 p4 p5 y mo d h mi s)) := by
  have hsec : matchSecond (rendOpt p5 s) = some (s, []) := second_eval p5 hs
  rcases hsep with rfl | rfl
  · apply datetime_error_of_strptime_none
    · rw [rendDateTime_data]
      exact strptime_constructor_fail true hy2 hmo1 hmo2 hd1 hd31 hh hmi p1 p2 p3 p4
        'T' rfl hsec (Or.inl hbadd) (matchSep_T _)
    · rw [rendDateTime_data]
      exact strptime_sep_mismatch false hy2 hmo1 hmo2 hd1 hd31 p1 p2 'T' rfl
        (matchSep_space_on_T _)
  · apply datetime_error_of_strptime_none
    · rw [rendDateTime_data]
      exact strptime_sep_mismatch true hy2 hmo1 hmo2 hd1 hd31 p1 p2 ' ' rfl
        (matchSep_T_on_space _)
    · rw [rendDateTime_data]
      exact strptime_constructor_fail false hy2 hmo1 hmo2 hd1 hd31 hh hmi p1 p2 p3 p4
        ' ' rfl hsec (Or.inl hbadd) (sep_space_eval p3 h (by omega) _)

theorem datetime_hour_big (sep : Char) (hsep : sep = 'T' ∨ sep = ' ')
    (p1 p2 p3 p4 p5 : Bool) {y mo d h : Nat} (hy2 : y ≤ 9999) (hmo1 : 1 ≤ mo)
    (hmo2 : mo ≤ 12) (hd1 : 1 ≤ d) (hd31 : d ≤ 31) (h24 : 24 ≤ h) (h99 : h ≤ 99)
    (mi s : Nat) :
    datetime_from_str (rendDateTime sep p1 p2 p3 p4 p5 y mo d h mi s) =
      .error (.parseDatetime (rendDateTime sep p1 p2 p3 p4 p5 y mo d h mi s)) := by
  have e3 : rendOpt p3 h = rend2 h := rendOpt_eq_rend2 p3 (by omega) h99
  rcases hsep with rfl | rfl
  · apply datetime_error_of_strptime_none
    · rw [rendDateTime_data, e3]
      exact strptime_hour_partial true hy2 hmo1 hmo2 hd1 hd31 p1 p2 'T' rfl
        (matchSep_T _) (matchHour_big h24 h99 _)
        (@matchLit_digitCh_none (h % 10) (by omega) ':' (by decide) _)
    · rw [rendDateTime_data]
      exact strptime_sep_mismatch false hy2 hmo1 hmo2 hd1 hd31 p1 p2 'T' rfl
        (matchSep_space_on_T _)
  · apply datetime_error_of_strptime_none
    · rw [rendDateTime_data]
      exact strptime_sep_mismatch true hy2 hmo1 hmo2 hd1 hd31 p1 p2 ' ' rfl
        (matchSep_T_on_space _)
    · rw [rendDateTime_data, e3]
      exact strptime_hour_partial false hy2 hmo1 hmo2 hd1 hd31 p1 p2 ' ' rfl
        (sep_space_eval true h (by omega) _) (matchHour_big h24 h99 _)
        (@matchLit_digitCh_none (h % 10) (by omega) ':' (by decide) _)

theorem datetime_minute_big (sep : Char) (hsep : sep = 'T' ∨ sep = ' ')
    (p1 p2 p3 p4 p5 : Bool) {y mo d h mi : Nat} (hy2 : y ≤ 9999) (hmo1 : 1 ≤ mo)
    (hmo2 : mo ≤ 12) (hd1 : 1 ≤ d) (hd31 : d ≤ 31) (hh : h ≤ 23) (h60 : 60 ≤ mi)
    (h99 : mi ≤ 99) (s : Nat) :
    datetime_from_str (rendDateTime sep p1 p2 p3 p4 p5 y mo d h mi s) =
      .error (.parseDatetime (rendDateTime sep p1 p2 p3 p4 p5 y mo d h mi s)) := by
  have e4 : rendOpt p4 mi = rend2 mi := rendOpt_eq_rend2 p4 (by omega) h99
  rcases hsep with rfl | rfl
  · apply datetime_error_of_strptime_none
    · rw [rendDateTime_data, e4]
      exact strptime_minute_partial true hy2 hmo1 hmo2 hd1 hd31 hh p1 p2 p3 'T' rfl
        (matchSep_T _) (matchMinute_big h60 h99 _)
        (@matchLit_digitCh_none (mi % 10) (by omega) ':' (by decide) _)
    · rw [rendDateTime_data]
      exact strptime_sep_mismatch false hy2 hmo1 hmo2 hd1 hd31 p1 p2 'T' rfl
        (matchSep_space_on_T _)
  · apply datetime_error_of_strptime_none
    · rw [rendDateTime_data]
      exact strptime_sep_mismatch true hy2 hmo1 hmo2 hd1 hd31 p1 p2 ' ' rfl
        (matchSep_T_on_space _)
    · rw [rendDateTime_data, e4]
      exact strptime_minute_partial false hy2 hmo1 hmo2 hd1 hd31 hh p1 p2 p3 ' ' rfl
        (sep_space_eval p3 h (by omega) _) (matchMinute_big h60 h99 _)
        (@matchLit_digitCh_none (mi % 10) (by omega) ':' (by decide) _)

theorem datetime_second_leap (sep : Char) (hsep : sep = 'T' ∨ sep = ' ')
    (p1 p2 p3 p4 p5 : Bool) {y mo d h mi s : Nat} (hy2 : y ≤ 9999) (hmo1 : 1 ≤ mo)
    (hmo2 : mo ≤ 12) (hd1 : 1 ≤ d) (hd31 : d ≤ 31) (hh : h ≤ 23) (hmi : mi ≤ 59)
    (h60 : 60 ≤ s) (h61 : s ≤ 61) :
    datetime_from_str (rendDateTime sep p1 p2 p3 p4 p5 y mo d h mi s) =
      .error (.parseDatetime (rendDateTime sep p1 p2 p3 p4 p5 y mo d h mi s)) := by
  have e5 : rendOpt p5 s = rend2 s := rendOpt_eq_rend2 p5 (by omega) (by omega)
  have hsec : matchSecond (rend2 s) = some (s, []) := by
    have := matchSecond_leap h60 h61 []
    simpa using this
  rcases hsep with rfl | rfl
  · apply datetime_error_of_strptime_none
    · rw [rendDateTime_data, e5]
      exact strptime_constructor_fail true hy2 hmo1 hmo2 hd1 hd31 hh hmi p1 p2 p3 p4
        'T' rfl hsec (Or.inr (by omega)) (matchSep_T _)
    · rw [rendDateTime_data]
      exact strptime_sep_mismatch false hy2 hmo1 hmo2 hd1 hd31 p1 p2 'T' rfl
        (matchSep_space_on_T _)
  · apply datetime_error_of_strptime_none
    · rw [rendDateTime_data]
      exact strptime_sep_mismatch true hy2 hmo1 hmo2 hd1 hd31 p1 p2 ' ' rfl
        (matchSep_T_on_space _)
    · rw [rendDateTime_data, e5]
      exact strptime_constructor_fail false hy2 hmo1 hmo2 hd1 hd31 hh hmi p1 p2 p3 p4
        ' ' rfl hsec (Or.inr (by omega)) (sep_space_eval p3 h (by omega) _)

theorem datetime_second_leftover (sep : Char) (hsep : sep = 'T' ∨ sep = ' ')
    (p1 p2 p3 p4 p5 : Bool) {y mo d h mi s : Nat} (hy2 : y ≤ 9999) (hmo1 : 1 ≤ mo)
    (hmo2 : mo ≤ 12) (hd1 : 1 ≤ d) (hd31 : d ≤ 31) (hh : h ≤ 23) (hmi : mi ≤ 59)
    (h62 : 62 ≤ s) (h99 : s ≤ 99) :
    datetime_from_str (rendDateTime sep p1 p2 p3 p4 p5 y mo d h mi s) =
      .error (.parseDatetime (rendDateTime sep p1 p2 p3 p4 p5 y mo d h mi s)) := by
  have e5 : rendOpt p5 s = rend2 s := rendOpt_eq_rend2 p5 (by omega) (by omega)
  rcases hsep with rfl | rfl
  · apply datetime_error_of_strptime_none
    · rw [rendDateTime_data, e5]
      exact strptime_second_leftover true hy2 hmo1 hmo2 hd1 hd31 hh hmi h62 h99
        p1 p2 p3 p4 'T' rfl (matchSep_T _)
    · rw [rendDateTime_data]
      exact strptime_sep_mismatch false hy2 hmo1 hmo2 hd1 hd31 p1 p2 'T' rfl
        (matchSep_space_on_T _)
  · apply datetime_error_of_strptime_none
    · rw [rendDateTime_data]
      exact strptime_sep_mismatch true hy2 hmo1 hmo2 hd1 hd31 p1 p2 ' ' rfl
        (matchSep_T_on_space _)
    · rw [rendDateTime_data, e5]
      exact strptime_second_leftover false hy2 hmo1 hmo2 hd1 hd31 hh hmi h62 h99
        p1 p2 p3 p4 ' ' rfl (sep_space_eval p3 h (by omega) _)


/-- Claim C8: `datetime_from_str` accepts date-and-time strings whose
separator is `T` or a single space, with each numeric field (month, day,
hour, minute, second) either zero-padded to two digits or written
minimally, whenever the year is four digits in 1..9999, the month is
1..12, the day is valid for that month and year (leap years included via
`daysInMonth`), the hour is 0..23, and the minute and second are 0..59;
and it fails with the parse error for every string with leading or
trailing whitespace, a year of fewer than four digits, a five-digit year,
a month of 0 or 13..99, a day of 0 or 32..99 or one exceeding the length
of the month, an hour of 24..99, a minute of 60..99, or a second of
60..99. -/
theorem datetime_parse_spec :
    (∀ (sep : Char) (p1 p2 p3 p4 p5 : Bool) (y mo d h mi s : Nat),
      sep = 'T' ∨ sep = ' ' → 1 ≤ y → y ≤ 9999 → 1 ≤ mo → mo ≤ 12 →
      1 ≤ d → d ≤ daysInMonth y mo → h ≤ 23 → mi ≤ 59 → s ≤ 59 →
      datetime_from_str (rendDateTime sep p1 p2 p3 p4 p5 y mo d h mi s) =
        .ok ⟨y, mo, d, h, mi, s⟩) ∧
    (∀ (c : Char) (cs : List Char), isPyWs c = true →
      datetime_from_str ⟨c :: cs⟩ = .error (.parseDatetime ⟨c :: cs⟩)) ∧
    (∀ (cs : List Char) (c : Char), isPyWs c = true →
      datetime_from_str ⟨cs ++ [c]⟩ = .error (.parseDatetime ⟨cs ++ [c]⟩)) ∧
    (∀ (y : Nat) (rest : List Char), y < 1000 →
      datetime_from_str ⟨natToDec y ++ '-' :: rest⟩ =
        .error (.parseDatetime ⟨natToDec y ++ '-' :: rest⟩)) ∧
    (∀ (a b c d e : Nat) (rest : List Char),
      a < 10 → b < 10 → c < 10 → d < 10 → e < 10 →
      datetime_from_str
          ⟨digitCh a :: digitCh b :: digitCh c :: digitCh d :: digitCh e :: rest⟩ =
        .error (.parseDatetime
          ⟨digitCh a :: digitCh b :: digitCh c :: digitCh d :: digitCh e :: rest⟩)) ∧
    (∀ (sep : Char) (p1 p2 p3 p4 p5 : Bool) (y d h mi s : Nat), y ≤ 9999 →
      datetime_from_str (rendDateTime sep p1 p2 p3 p4 p5 y 0 d h mi s) =
        .error (.parseDatetime (rendDateTime sep p1 p2 p3 p4 p5 y 0 d h mi s))) ∧
    (∀ (sep : Char) (p1 p2 p3 p4 p5 : Bool) (y mo d h mi s : Nat),
      y ≤ 9999 → 13 ≤ mo → mo ≤ 99 →
      datetime_from_str (rendDateTime sep p1 p2 p3 p4 p5 y mo d h mi s) =
        .error (.parseDatetime (rendDateTime sep p1 p2 p3 p4 p5 y mo d h mi s))) ∧
    (∀ (sep : Char) (p1 p2 p3 p4 p5 : Bool) (y mo h mi s : Nat),
      sep = 'T' ∨ sep = ' ' → y ≤ 9999 → 1 ≤ mo → mo ≤ 12 →
      datetime_from_str (rendDateTime sep p1 p2 p3 p4 p5 y mo 0 h mi s) =
        .error (.parseDatetime (rendDateTime sep p1 p2 p3 p4 p5 y mo 0 h mi s))) ∧
    (∀ (sep : Char) (p1 p2 p3 p4 p5 : Bool) (y mo d h mi s : Nat),
      y ≤ 9999 → 1 ≤ mo → mo ≤ 12 → 32 ≤ d → d ≤ 99 →
      datetime_from_str (rendDateTime sep p1 p2 p3 p4 p5 y mo d h mi s) =
        .error (.parseDatetime (rendDateTime sep p1 p2 p3 p4 p5 y mo d h mi s))) ∧
    (∀ (sep : Char) (p1 p2 p3 p4 p5 : Bool) (y mo d h mi s : Nat),
      sep = 'T' ∨ sep = ' ' → y ≤ 9999 → 1 ≤ mo → mo ≤ 12 →
      1 ≤ d → d ≤ 31 → daysInMonth y mo < d → h ≤ 23 → mi ≤ 59 → s ≤ 59 →
      datetime_from_str (rendDateTime sep p1 p2 p3 p4 p5 y mo d h mi s) =
        .error (.parseDatetime (rendDateTime sep p1 p2 p3 p4 p5 y mo d h mi s))) ∧
    (∀ (sep : Char) (p1 p2 p3 p4 p5 : Bool) (y mo d h mi s : Nat),
      sep = 'T' ∨ sep = ' ' → y ≤ 9999 → 1 ≤ mo → mo ≤ 12 →
      1 ≤ d → d ≤ 31 → 24 ≤ h → h ≤ 99 →
      datetime_from_str (rendDateTime sep p1 p2 p3 p4 p5 y mo d h mi s) =
        .error (.parseDatetime (rendDateTime sep p1 p2 p3 p4 p5 y mo d h mi s))) ∧
    (∀ (sep : Char) (p1 p2 p3 p4 p5 : Bool) (y mo d h mi s : Nat),
      sep = 'T' ∨ sep = ' ' → y ≤ 9999 → 1 ≤ mo → mo ≤ 12 →
      1 ≤ d → d ≤ 31 → h ≤ 23 → 60 ≤ mi → mi ≤ 99 →
      datetime_from_str (rendDateTime sep p1 p2 p3 p4 p5 y mo d h mi s) =
        .error (.parseDatetime (rendDateTime sep p1 p2 p3 p4 p5 y mo d h mi s))) ∧
    (∀ (sep : Char) (p1 p2 p3 p4 p5 : Bool) (y mo d h mi s : Nat),
      sep = 'T' ∨ sep = ' ' → y ≤ 9999 → 1 ≤ mo → mo ≤ 12 →
      1 ≤ d → d ≤ 31 → h ≤ 23 → mi ≤ 59 → 60 ≤ s → s ≤ 61 →
      datetime_from_str (rendDateTime sep p1 p2 p3 p4 p5 y mo d h mi s) =
        .error (.parseDatetime (rendDateTime sep p1 p2 p3 p4 p5 y mo d h mi s))) ∧
    (∀ (sep : Char) (p1 p2 p3 p4 p5 : Bool) (y mo d h mi s : Nat),
      sep = 'T' ∨ sep = ' ' → y ≤ 9999 → 1 ≤ mo → mo ≤ 12 →
      1 ≤ d → d ≤ 31 → h ≤ 23 → mi ≤ 59 → 62 ≤ s → s ≤ 99 →
      datetime_from_str (rendDateTime sep p1 p2 p3 p4 p5 y mo d h mi s) =
        .error (.parseDatetime (rendDateTime sep p1 p2 p3 p4 p5 y mo d h mi s))) := by
  refine ⟨?_, ?_, ?_, ?_, ?_, ?_, ?_, ?_, ?_, ?_, ?_, ?_, ?_, ?_⟩
  · intro sep p1 p2 p3 p4 p5 y mo d h mi s hsep hy1 hy2 hmo1 hmo2 hd1 hd2 hh hmi hs
    exact datetime_from_str_accept sep p1 p2 p3 p4 p5 hsep hy1 hy2 hmo1 hmo2 hd1 hd2
      hh hmi hs
  · intro c cs hc
    exact datetime_leading_ws hc cs
  · intro cs c hc
    exact datetime_trailing_ws cs hc
  · intro y rest hy
    exact datetime_year_short hy rest
  · intro a b c d e rest ha hb hc hd he
    exact datetime_year_long ha hb hc hd he rest
  · intro sep p1 p2 p3 p4 p5 y d h mi s hy2
    exact datetime_month_zero sep p1 p2 p3 p4 p5 hy2 d h mi s
  · intro sep p1 p2 p3 p4 p5 y mo d h mi s hy2 h13 h99
    exact datetime_month_big sep p1 p2 p3 p4 p5 hy2 h13 h99 d h mi s
  · intro sep p1 p2 p3 p4 p5 y mo h mi s hsep hy2 hmo1 hmo2
    exact datetime_day_zero sep hsep p1 p2 p3 p4 p5 hy2 hmo1 hmo2 h mi s
  · intro sep p1 p2 p3 p4 p5 y mo d h mi s hy2 hmo1 hmo2 h32 h99
    exact datetime_day_big sep p1 p2 p3 p4 p5 hy2 hmo1 hmo2 h32 h99 h mi s
  · intro sep p1 p2 p3 p4 p5 y mo d h mi s hsep hy2 hmo1 hmo2 hd1 hd31 hbadd hh hmi hs
    exact datetime_day_invalid sep hsep p1 p2 p3 p4 p5 hy2 hmo1 hmo2 hd1 hd31 hbadd
      hh hmi hs
  · intro sep p1 p2 p3 p4 p5 y mo d h mi s hsep hy2 hmo1 hmo2 hd1 hd31 h24 h99
    exact datetime_hour_big sep hsep p1 p2 p3 p4 p5 hy2 hmo1 hmo2 hd1 hd31 h24 h99 mi s
  · intro sep p1 p2 p3 p4 p5 y mo d h mi s hsep hy2 hmo1 hmo2 hd1 hd31 hh h60 h99
    exact datetime_minute_big sep hsep p1 p2 p3 p4 p5 hy2 hmo1 hmo2 hd1 hd31 hh h60
      h99 s
  · intro sep p1 p2 p3 p4 p5 y mo d h mi s hsep hy2 hmo1 hmo2 hd1 hd31 hh hmi h60 h61
    exact datetime_second_leap sep hsep p1 p2 p3 p4 p5 hy2 hmo1 hmo2 hd1 hd31 hh hmi
      h60 h61
  · intro sep p1 p2 p3 p4 p5 y mo d h mi s hsep hy2 hmo1 hmo2 hd1 hd31 hh hmi h62 h99
    exact datetime_second_leftover sep hsep p1 p2 p3 p4 p5 hy2 hmo1 hmo2 hd1 hd31 hh
      hmi h62 h99

/-- Witness for `datetime_parse_spec`: the leap-day timestamp
`2024-02-29T13:05:59` is accepted with the expected components, and the
same day in the non-leap year 1970 is rejected. -/
theorem datetime_parse_spec_witness :
    datetime_from_str (rendDateTime 'T' true true true true true 2024 2 29 13 5 59) =
      .ok ⟨2024, 2, 29, 13, 5, 59⟩ ∧
    datetime_from_str (rendDateTime 'T' true true true true true 1970 2 29 0 0 0) =
      .error (.parseDatetime
        (rendDateTime 'T' true true true true true 1970 2 29 0 0 0)) := by
  refine ⟨?_, ?_⟩
  · exact datetime_parse_spec.1 'T' true true true true true 2024 2 29 13 5 59
      (Or.inl rfl) (by decide) (by decide) (by decide) (by decide) (by decide)
      (by decide) (by decide) (by decide) (by decide)
  · exact datetime_parse_spec.2.2.2.2.2.2.2.2.2.1 'T' true true true true true
      1970 2 29 0 0 0 (Or.inl rfl) (by decide) (by decide) (by decide) (by decide)
      (by decide) (by decide) (by decide) (by decide) (by decide)

end Mvcs
